import Mathlib

/-!
Verification of the AI decision core of the platform-brawl prototype
(Behavior-Tree runtime, platform graph with BFS pathfinding, leaf
vocabulary with navigation/combat hysteresis, BotAgent driver, and the
BT JSON validator).

Numeric values (pixel coordinates, velocities, millisecond timestamps)
are modelled as exact rationals; JS booleans as Bool; nullable values as
Option.  Stateful JS code (node-local cooldown state, blackboard memory
records, the intent object mutated through the tick context) is modelled
by explicit state passing: each operation returns its result together
with the updated state.
-/

namespace BrawlAi

/-- JS Math.sign restricted to the rationals (NaN is out of model). -/
def jsSign (q : ℚ) : ℚ :=
  if 0 < q then 1 else if q < 0 then -1 else 0

/-- clamp(value, min, max) = Math.max(min, Math.min(max, value)) as in
BotAgent.js and runtime helpers. -/
def jsClamp (value min max : ℚ) : ℚ :=
  Max.max min (Min.min max value)

/-- JS Math.round: round half toward positive infinity. -/
def jsRound (q : ℚ) : ℚ :=
  (⌊q + 1/2⌋ : ℤ)

/-- JS Math.abs, written with an if so that the kernel can evaluate it
on rational literals. -/
def jsAbs (q : ℚ) : ℚ := if q < 0 then -q else q

theorem jsAbs_eq_abs (q : ℚ) : jsAbs q = |q| := by
  unfold jsAbs
  split
  · exact (abs_of_neg (by assumption)).symm
  · exact (abs_of_nonneg (not_lt.mp (by assumption))).symm

/-! ## Behavior-Tree runtime (src/game/ai/bt/runtime.js)

The runtime is generic: leaves are arbitrary functions over the tick
context.  We keep the runtime polymorphic in a payload type so that the
engine theorems quantify over every possible leaf behaviour; the
game-specific context instantiates the payload. -/

/-- BT_STATUS: three-valued tick result. -/
inductive Status where
  | success
  | failure
  | running
deriving DecidableEq, Repr

/-- The per-tick context seen by the generic runtime: current time, the
append-only trace (name, status) written by BtNode.tick, and an opaque
payload carrying everything else (entities, blackboard, intent, ...).
Leaves may read and rewrite the whole context, like JS closures mutating
the shared ctx object. -/
structure BtCtx (α : Type) where
  nowMs : ℚ
  trace : List (String × Status)
  payload : α

/-- Append one {name, status} record to ctx.trace (BtNode.tick). -/
def pushTrace {α : Type} (name : String) (st : Status) (ctx : BtCtx α) : BtCtx α :=
  { ctx with trace := ctx.trace ++ [(name, st)] }

/-- BT node tree.  Cooldown carries its node-local state
(_lastSuccessAtMs, none standing for the initial -Infinity) so that
ticking returns an updated tree. -/
inductive BtNode (α : Type) where
  | selector (name : String) (children : List (BtNode α))
  | sequence (name : String) (children : List (BtNode α))
  | inverter (name : String) (child : BtNode α)
  | cooldown (name : String) (cooldownMs : ℚ) (lastSuccessAtMs : Option ℚ)
      (child : BtNode α)
  | leaf (name : String) (fn : BtCtx α → Status × BtCtx α)

mutual

/-- BtNode.tick: run the node, record {name, status} in the trace, and
return the status together with the mutated context and the node with
its updated internal state. -/
def tick {α : Type} : BtNode α → BtCtx α → Status × BtCtx α × BtNode α
  | .selector name children, ctx =>
      let r := tickSelectorChildren children ctx
      (r.1, pushTrace name r.1 r.2.1, .selector name r.2.2)
  | .sequence name children, ctx =>
      let r := tickSequenceChildren children ctx
      (r.1, pushTrace name r.1 r.2.1, .sequence name r.2.2)
  | .inverter name child, ctx =>
      let r := tick child ctx
      let st :=
        match r.1 with
        | .success => Status.failure
        | .failure => Status.success
        | .running => Status.running
      (st, pushTrace name st r.2.1, .inverter name r.2.2)
  | .cooldown name cooldownMs lastSuccessAtMs child, ctx =>
      let nowMs := ctx.nowMs
      -- nowMs - (-Infinity) < cooldownMs is false, so `none` is never cooling.
      let cooling :=
        match lastSuccessAtMs with
        | none => false
        | some t0 => decide (nowMs - t0 < cooldownMs)
      if cooling then
        (.failure, pushTrace name .failure ctx,
          .cooldown name cooldownMs lastSuccessAtMs child)
      else
        let r := tick child ctx
        let last2 := if r.1 = Status.success then some nowMs else lastSuccessAtMs
        (r.1, pushTrace name r.1 r.2.1, .cooldown name cooldownMs last2 r.2.2)
  | .leaf name fn, ctx =>
      let r := fn ctx
      (r.1, pushTrace name r.1 r.2, .leaf name fn)

/-- SelectorNode.run: tick children in order; SUCCESS or RUNNING
short-circuits; FAILURE falls through; all-FAILURE gives FAILURE. -/
def tickSelectorChildren {α : Type} :
    List (BtNode α) → BtCtx α → Status × BtCtx α × List (BtNode α)
  | [], ctx => (.failure, ctx, [])
  | c :: rest, ctx =>
      let r := tick c ctx
      match r.1 with
      | .success => (.success, r.2.1, r.2.2 :: rest)
      | .running => (.running, r.2.1, r.2.2 :: rest)
      | .failure =>
          let r2 := tickSelectorChildren rest r.2.1
          (r2.1, r2.2.1, r.2.2 :: r2.2.2)

/-- SequenceNode.run: tick children in order; FAILURE or RUNNING
short-circuits; SUCCESS falls through; all-SUCCESS gives SUCCESS. -/
def tickSequenceChildren {α : Type} :
    List (BtNode α) → BtCtx α → Status × BtCtx α × List (BtNode α)
  | [], ctx => (.success, ctx, [])
  | c :: rest, ctx =>
      let r := tick c ctx
      match r.1 with
      | .failure => (.failure, r.2.1, r.2.2 :: rest)
      | .running => (.running, r.2.1, r.2.2 :: rest)
      | .success =>
          let r2 := tickSequenceChildren rest r.2.1
          (r2.1, r2.2.1, r.2.2 :: r2.2.2)

end

/-! Reference formulations of the composite semantics, written from the
spec sentence of claim C1 ("a Selector returns the status of the first
non-FAILURE child, or FAILURE if all fail; a Sequence returns the status
of the first non-SUCCESS child, or SUCCESS if all succeed"), to be
compared against the implementation above. -/

/-- Spec reading for Selector: the status of the first child whose tick
is not FAILURE (evaluating children in order, threading the context), or
FAILURE when every child ticks to FAILURE. -/
def selectorSpecStatus {α : Type} : List (BtNode α) → BtCtx α → Status
  | [], _ => .failure
  | c :: rest, ctx =>
      let r := tick c ctx
      if r.1 = Status.failure then selectorSpecStatus rest r.2.1 else r.1

/-- Spec reading for Sequence: the status of the first child whose tick
is not SUCCESS, or SUCCESS when every child ticks to SUCCESS. -/
def sequenceSpecStatus {α : Type} : List (BtNode α) → BtCtx α → Status
  | [], _ => .success
  | c :: rest, ctx =>
      let r := tick c ctx
      if r.1 = Status.success then sequenceSpecStatus rest r.2.1 else r.1

/-- C1: a Selector tick returns the status of the first non-FAILURE
child (or FAILURE if all children fail), and a Sequence tick returns the
status of the first non-SUCCESS child (or SUCCESS if all succeed), for
every behavior tree and tick context. -/
theorem selector_sequence_first_nonfall_status {α : Type}
    (name : String) (children : List (BtNode α)) (ctx : BtCtx α) :
    (tick (BtNode.selector name children) ctx).1 =
        selectorSpecStatus children ctx ∧
      (tick (BtNode.sequence name children) ctx).1 =
        sequenceSpecStatus children ctx := by
  constructor
  · show (tickSelectorChildren children ctx).1 = _
    induction children generalizing ctx with
    | nil => rfl
    | cons c rest ih =>
        simp only [tickSelectorChildren, selectorSpecStatus]
        rcases h : (tick c ctx).1 with _ | _ | _ <;> simp [h, ih]
  · show (tickSequenceChildren children ctx).1 = _
    induction children generalizing ctx with
    | nil => rfl
    | cons c rest ih =>
        simp only [tickSequenceChildren, sequenceSpecStatus]
        rcases h : (tick c ctx).1 with _ | _ | _ <;> simp [h, ih]

/-- A leaf that always succeeds without touching the context (the mock
leaf of the spec's Cooldown scenario). -/
def alwaysSuccessLeaf (α : Type) : BtNode α :=
  .leaf "AlwaysSuccess" (fun ctx => (Status.success, ctx))

/-- C2: Cooldown gating.  (i) While nowMs - lastSuccess < cooldownMs the
node returns FAILURE without evaluating its child: the context gains only
the cooldown's own trace record and the node (child included) is
unchanged.  (ii) Otherwise the child is evaluated and the stored
last-success timestamp becomes nowMs exactly when the child returned
SUCCESS, otherwise it is kept (FAILURE and RUNNING do not update it).
(iii) Scenario: a Cooldown(ms) with ms > 0 wrapping an always-SUCCESS
leaf, ticked at t0, t0 + ms/2, t0 + ms + 1 (threading the node state),
yields SUCCESS, FAILURE, SUCCESS. -/
theorem cooldown_gating {α : Type} :
    (∀ (name : String) (ms t0 : ℚ) (child : BtNode α) (ctx : BtCtx α),
      ctx.nowMs - t0 < ms →
        tick (BtNode.cooldown name ms (some t0) child) ctx =
          (.failure, pushTrace name .failure ctx,
            BtNode.cooldown name ms (some t0) child)) ∧
    (∀ (name : String) (ms : ℚ) (last : Option ℚ) (child : BtNode α)
        (ctx : BtCtx α),
      (∀ t0, last = some t0 → ¬ ctx.nowMs - t0 < ms) →
        (tick (BtNode.cooldown name ms last child) ctx).1 =
            (tick child ctx).1 ∧
          (tick (BtNode.cooldown name ms last child) ctx).2.2 =
            BtNode.cooldown name ms
              (if (tick child ctx).1 = Status.success then some ctx.nowMs
               else last)
              (tick child ctx).2.2) ∧
    (∀ (name : String) (ms t0 : ℚ), 0 < ms →
      ∀ (tr : List (String × Status)) (pl : α),
      let node0 := BtNode.cooldown name ms none (alwaysSuccessLeaf α)
      let r1 := tick node0 ⟨t0, tr, pl⟩
      let r2 := tick r1.2.2 ⟨t0 + ms / 2, tr, pl⟩
      let r3 := tick r2.2.2 ⟨t0 + ms + 1, tr, pl⟩
      r1.1 = Status.success ∧ r2.1 = Status.failure ∧
        r3.1 = Status.success) := by
  refine ⟨?_, ?_, ?_⟩
  · intro name ms t0 child ctx h
    simp only [tick]
    rw [if_pos]
    simpa using h
  · intro name ms last child ctx h
    cases last with
    | none => exact ⟨rfl, rfl⟩
    | some t0 =>
        have hc : decide (ctx.nowMs - t0 < ms) = false := by
          simpa using h t0 rfl
        simp only [tick, hc]
        exact ⟨rfl, rfl⟩
  · intro name ms t0 hms tr pl
    have hhalf : decide (t0 + ms / 2 - t0 < ms) = true :=
      decide_eq_true (by linarith)
    have hfull : decide (t0 + ms + 1 - t0 < ms) = false :=
      decide_eq_false (by intro h; linarith)
    refine ⟨rfl, ?_, ?_⟩
    · show (tick (BtNode.cooldown name ms (some t0) (alwaysSuccessLeaf α))
          ⟨t0 + ms / 2, tr, pl⟩).1 = Status.failure
      simp [tick, hhalf, hms]
    · show (tick (tick (BtNode.cooldown name ms (some t0) (alwaysSuccessLeaf α))
          ⟨t0 + ms / 2, tr, pl⟩).2.2 ⟨t0 + ms + 1, tr, pl⟩).1 = Status.success
      have hnode :
          (tick (BtNode.cooldown name ms (some t0) (alwaysSuccessLeaf α))
            ⟨t0 + ms / 2, tr, pl⟩).2.2 =
          BtNode.cooldown name ms (some t0) (alwaysSuccessLeaf α) := by
        simp [tick, hhalf, hms]
      rw [hnode]
      simp [tick, hfull, alwaysSuccessLeaf, hms]

/-- Witness for C2 at concrete inputs (α = Unit, name "Cooldown",
ms = 100, t0 = 0): each hypothesis of cooldown_gating is discharged on a
concrete instance. -/
theorem cooldown_gating_witness :
    (tick (BtNode.cooldown "Cooldown" 100 (some 0) (alwaysSuccessLeaf Unit))
        ⟨40, [], ()⟩ =
      (.failure, pushTrace "Cooldown" .failure ⟨40, [], ()⟩,
        BtNode.cooldown "Cooldown" 100 (some 0) (alwaysSuccessLeaf Unit))) ∧
    ((tick (BtNode.cooldown "Cooldown" 100 (some 0) (alwaysSuccessLeaf Unit))
        ⟨150, [], ()⟩).1 =
      (tick (alwaysSuccessLeaf Unit) ⟨150, [], ()⟩).1) ∧
    (tick (BtNode.cooldown "Cooldown" 100 none (alwaysSuccessLeaf Unit))
        ⟨0, [], ()⟩).1 = Status.success := by
  refine ⟨?_, ?_, ?_⟩
  · exact (cooldown_gating (α := Unit)).1 "Cooldown" 100 0 _ _ (by norm_num)
  · exact ((cooldown_gating (α := Unit)).2.1 "Cooldown" 100 (some 0) _ _
      (by intro x hx; cases hx; norm_num)).1
  · exact ((cooldown_gating (α := Unit)).2.2 "Cooldown" 100 0 (by norm_num)
      [] ()).1

/-! ## JSON values and tree construction (buildBtTreeFromJson)

JSON values as produced by JSON.parse.  Numbers are rationals (doubles
out of model); object fields are an association list in insertion order
(JSON.parse never yields duplicate keys). -/

inductive Json where
  | null
  | bool (b : Bool)
  | num (q : ℚ)
  | str (s : String)
  | arr (items : List Json)
  | obj (fields : List (String × Json))

namespace Json

/-- Property lookup on an object; none for non-objects or missing keys
(JS undefined). -/
def get : Json → String → Option Json
  | .obj fields, key => (fields.find? (fun f => f.1 == key)).map (·.2)
  | _, _ => none

/-- `Array.isArray(json.children) ? json.children : []`. -/
def childrenOf (j : Json) : List Json :=
  match j.get "children" with
  | some (.arr xs) => xs
  | _ => []

/-- `typeof json.params === 'object' && json.params ? json.params : {}`. -/
def paramsOf (j : Json) : Json :=
  match j.get "params" with
  | some (.obj po) => .obj po
  | _ => .obj []

end Json

theorem sizeOf_pos_list {α : Type} [SizeOf α] (l : List α) : 0 < sizeOf l := by
  cases l <;> simp

theorem Json.sizeOf_get {fields : List (String × Json)} {key : String}
    {v : Json} (h : (Json.obj fields).get key = some v) :
    sizeOf v < 1 + sizeOf fields := by
  simp only [Json.get] at h
  cases hf : List.find? (fun f => f.1 == key) fields with
  | none => rw [hf] at h; simp at h
  | some f =>
      rw [hf] at h
      simp at h
      have hmem := List.mem_of_find?_eq_some hf
      have h1 : sizeOf f < sizeOf fields := List.sizeOf_lt_of_mem hmem
      obtain ⟨a, b⟩ := f
      simp only [Prod.mk.sizeOf_spec] at h1
      simp only [← h]
      omega

theorem Json.sizeOf_childrenOf (fields : List (String × Json)) :
    sizeOf (Json.childrenOf (Json.obj fields)) < sizeOf (Json.obj fields) := by
  have hpos := sizeOf_pos_list fields
  unfold Json.childrenOf
  cases h : (Json.obj fields).get "children" with
  | none => simp; omega
  | some v =>
      have hv := Json.sizeOf_get h
      cases v with
      | arr xs => simp at hv ⊢; omega
      | null => simp; omega
      | bool b => simp; omega
      | num q => simp; omega
      | str s2 => simp; omega
      | obj po => simp; omega

/-- Number(params.ms ?? 250) in buildBtTreeFromJson.  The only shapes the
validator admits (and the repo ever stores) are a number or an absent
key; other JSON shapes are mapped to the same 250 default the absent key
gets (JS would coerce them through Number()). -/
def cooldownMsParam (params : Json) : ℚ :=
  match params.get "ms" with
  | some (.num q) => q
  | _ => 250

/-! buildBtTreeFromJson (src/game/ai/bt/runtime.js).  Errors are the
thrown Error messages.  `leafFactories` maps a leaf type to a factory
from the params object, mirroring the string-keyed JS factory map.
JS detail kept: a missing or non-array `children` property is an empty
children list, and only Inverter/Cooldown check the child count. -/

mutual

def buildBtTreeFromJson {α : Type} (json : Json)
    (leafFactories : String → Option (Json → BtNode α)) :
    Except String (BtNode α) :=
  match json with
  | .obj fields =>
      match (Json.obj fields).get "type" with
      | some (.str type) =>
          if type = "Selector" then
            (buildBtChildren (Json.childrenOf (.obj fields)) leafFactories).map
              (fun cs => .selector "Selector" cs)
          else if type = "Sequence" then
            (buildBtChildren (Json.childrenOf (.obj fields)) leafFactories).map
              (fun cs => .sequence "Sequence" cs)
          else if type = "Inverter" then
            match h : Json.childrenOf (.obj fields) with
            | [c] =>
                (buildBtTreeFromJson c leafFactories).map
                  (fun t => .inverter "Inverter" t)
            | _ => .error "Inverter must have exactly 1 child"
          else if type = "Cooldown" then
            match h : Json.childrenOf (.obj fields) with
            | [c] =>
                (buildBtTreeFromJson c leafFactories).map
                  (fun t =>
                    .cooldown "Cooldown"
                      (cooldownMsParam (Json.paramsOf (.obj fields))) none t)
            | _ => .error "Cooldown must have exactly 1 child"
          else
            match leafFactories type with
            | some factory => .ok (factory (Json.paramsOf (.obj fields)))
            | none => .error ("Unknown BT node type: " ++ type)
      | _ => .error "BT JSON node must have string type"
  -- JS: typeof [] is object, but an array has no string `type` property.
  | .arr _ => .error "BT JSON node must have string type"
  | _ => .error "BT JSON root must be an object"
termination_by sizeOf json
decreasing_by
  all_goals first
    | exact Json.sizeOf_childrenOf fields
    | (have h1 := Json.sizeOf_childrenOf fields
       rw [h] at h1
       simp at h1
       simp
       omega)

def buildBtChildren {α : Type} (xs : List Json)
    (leafFactories : String → Option (Json → BtNode α)) :
    Except String (List (BtNode α)) :=
  match xs with
  | [] => .ok []
  | c :: rest =>
      match buildBtTreeFromJson c leafFactories with
      | .error e => .error e
      | .ok t =>
          match buildBtChildren rest leafFactories with
          | .error e => .error e
          | .ok ts => .ok (t :: ts)
termination_by sizeOf xs
decreasing_by
  all_goals (simp; try omega)

end

/-- C10: buildBtTreeFromJson accepts a Selector or Sequence whose
children field is missing or an empty array (no construction error),
while an Inverter or Cooldown whose children array has length other than
1 is rejected; and ticking the resulting childless Selector yields
FAILURE while the childless Sequence yields SUCCESS, for every tick
context. -/
theorem childless_composites_build_and_tick {α : Type}
    (leafFactories : String → Option (Json → BtNode α)) :
    (buildBtTreeFromJson (.obj [("type", .str "Selector")]) leafFactories =
        .ok (.selector "Selector" []) ∧
      buildBtTreeFromJson
          (.obj [("type", .str "Selector"), ("children", .arr [])])
          leafFactories =
        .ok (.selector "Selector" []) ∧
      buildBtTreeFromJson (.obj [("type", .str "Sequence")]) leafFactories =
        .ok (.sequence "Sequence" []) ∧
      buildBtTreeFromJson
          (.obj [("type", .str "Sequence"), ("children", .arr [])])
          leafFactories =
        .ok (.sequence "Sequence" [])) ∧
    (∀ ctx : BtCtx α,
      (tick (BtNode.selector "Selector" []) ctx).1 = Status.failure ∧
        (tick (BtNode.sequence "Sequence" []) ctx).1 = Status.success) ∧
    (∀ cs : List Json, cs.length ≠ 1 →
      buildBtTreeFromJson
          (.obj [("type", .str "Inverter"), ("children", .arr cs)])
          leafFactories =
        .error "Inverter must have exactly 1 child" ∧
      buildBtTreeFromJson
          (.obj [("type", .str "Cooldown"), ("children", .arr cs)])
          leafFactories =
        .error "Cooldown must have exactly 1 child") := by
  refine ⟨⟨?_, ?_, ?_, ?_⟩, fun ctx => ⟨rfl, rfl⟩, ?_⟩
  · simp [buildBtTreeFromJson, buildBtChildren, Json.childrenOf, Json.get, Except.map]
  · simp [buildBtTreeFromJson, buildBtChildren, Json.childrenOf, Json.get, Except.map]
  · simp [buildBtTreeFromJson, buildBtChildren, Json.childrenOf, Json.get, Except.map]
  · simp [buildBtTreeFromJson, buildBtChildren, Json.childrenOf, Json.get, Except.map]
  · intro cs hlen
    match cs with
    | [] =>
        constructor <;>
          simp [buildBtTreeFromJson, Json.childrenOf, Json.get]
    | [c] => exact absurd rfl hlen
    | c1 :: c2 :: rest =>
        constructor <;>
          simp [buildBtTreeFromJson, Json.childrenOf, Json.get]

/-- Witness for C10: the child-count hypothesis discharged at concrete
inputs (an Inverter with zero children and one with two children). -/
theorem childless_composites_build_and_tick_witness :
    buildBtTreeFromJson (α := Unit)
        (.obj [("type", .str "Inverter"), ("children", .arr [])])
        (fun _ => none) =
      .error "Inverter must have exactly 1 child" ∧
    buildBtTreeFromJson (α := Unit)
        (.obj [("type", .str "Cooldown"),
          ("children", .arr [.obj [("type", .str "Evade")],
            .obj [("type", .str "Evade")]])])
        (fun _ => none) =
      .error "Cooldown must have exactly 1 child" := by
  exact ⟨((childless_composites_build_and_tick (fun _ => none)).2.2 []
      (by decide)).1,
    ((childless_composites_build_and_tick (fun _ => none)).2.2 [_, _]
      (by decide)).2⟩

/-! ## Platform graph (src/game/stage/platformGraph.js)

Nodes are derived from platform rectangles; edges form a directed
adjacency map keyed by node id (a JS Map, modelled as an association
list in insertion order). -/

/-- Input rectangle for buildPlatformNodes (x/y are the center). -/
structure PlatformRect where
  x : ℚ
  y : ℚ
  width : ℚ
  height : ℚ
  oneWay : Bool
deriving DecidableEq, Repr

/-- Derived platform node. -/
structure PlatformNode where
  id : Nat
  left : ℚ
  right : ℚ
  top : ℚ
  bottom : ℚ
  centerX : ℚ
  width : ℚ
  height : ℚ
  oneWay : Bool
deriving DecidableEq, Repr

/-- buildPlatformNodes: ids are list indices. -/
def buildPlatformNodes (platformObjects : List PlatformRect) :
    List PlatformNode :=
  platformObjects.enum.map (fun e =>
    { id := e.1
      left := e.2.x - e.2.width / 2
      right := e.2.x + e.2.width / 2
      top := e.2.y - e.2.height / 2
      bottom := e.2.y + e.2.height / 2
      centerX := e.2.x
      width := e.2.width
      height := e.2.height
      oneWay := e.2.oneWay })

/-- Directed platform graph: nodes plus adjacency (association list
keyed by node id). -/
structure PlatformGraph where
  nodes : List PlatformNode
  edges : List (Nat × List Nat)
deriving DecidableEq, Repr

/-- graph.edges.get(id) ?? [] -/
def edgesGet (g : PlatformGraph) (id : Nat) : List Nat :=
  match g.edges.find? (fun e => e.1 == id) with
  | some e => e.2
  | none => []

/-- The edge test of buildPlatformGraph applied to an ordered pair of
distinct nodes: upward travel (rise > 0, y grows downward) needs
rise <= maxJumpHeight and |dx| <= maxJumpDistance; level/downward travel
only needs |dx| <= maxJumpDistance * 1.8. -/
def edgeAllowed (a b : PlatformNode) (maxJumpHeight maxJumpDistance : ℚ) :
    Bool :=
  let dx := jsAbs (b.centerX - a.centerX)
  let rise := a.top - b.top
  if 0 < rise then
    decide (rise ≤ maxJumpHeight) && decide (dx ≤ maxJumpDistance)
  else
    decide (dx ≤ maxJumpDistance * (9 / 5))

/-- buildPlatformGraph.  The JS code first seeds edges.set(node.id, [])
for every node and then pushes neighbours in node order inside a nested
loop; with the distinct ids produced by buildPlatformNodes this is the
same map as building each adjacency list directly in node order. -/
def buildPlatformGraph (platformNodes : List PlatformNode)
    (maxJumpHeight maxJumpDistance : ℚ) : PlatformGraph :=
  { nodes := platformNodes
    edges := platformNodes.map (fun a =>
      (a.id,
        (platformNodes.filter (fun b =>
          a.id != b.id && edgeAllowed a b maxJumpHeight maxJumpDistance)).map
            (·.id))) }

/-- getPlatformIdForFighter: nearest platform whose horizontal span
contains x and whose top is within epsilonPx of the feet; null when not
grounded.  The JS loop keeps the first platform attaining the strictly
smallest distance; `none` in the accumulator plays Infinity. -/
def getPlatformIdForFighter (x y displayHeight : ℚ) (onGround : Bool)
    (platformNodes : List PlatformNode) (epsilonPx : ℚ := 10) : Option Nat :=
  if !onGround then none
  else
    let feetY := y + displayHeight / 2
    (platformNodes.foldl
      (fun (acc : Option (Nat × ℚ)) p =>
        if x < p.left || x > p.right then acc
        else
          let dist := jsAbs (feetY - p.top)
          if dist > epsilonPx then acc
          else
            match acc with
            | none => some (p.id, dist)
            | some best => if dist < best.2 then some (p.id, dist) else acc)
      none).map (·.1)

/-- C6: for distinct nodes A, B of a node list with pairwise-distinct
ids, buildPlatformGraph creates the directed edge A→B iff: when B's top
is strictly higher than A's top (rise = A.top − B.top > 0, y grows
downward), rise ≤ maxJumpHeight and |B.centerX − A.centerX| ≤
maxJumpDistance; otherwise |B.centerX − A.centerX| ≤
maxJumpDistance * 1.8. -/
theorem find?_map_assoc (ns : List PlatformNode)
    (f : PlatformNode → List Nat) (A : PlatformNode)
    (hnodup : (ns.map (·.id)).Nodup) (hA : A ∈ ns) :
    (ns.map (fun a => (a.id, f a))).find? (fun e => e.1 == A.id) =
      some (A.id, f A) := by
  induction ns with
  | nil => simp at hA
  | cons hd tl ih =>
      rw [List.map_cons, List.nodup_cons] at hnodup
      rcases List.mem_cons.mp hA with h | h
      · subst h
        simp [List.find?]
      · have hhd : (hd.id == A.id) = false := by
          simp only [beq_eq_false_iff_ne, ne_eq]
          intro heq
          exact hnodup.1 (heq ▸ List.mem_map_of_mem (·.id) h)
        rw [List.map_cons]
        simp only [List.find?_cons, hhd]
        exact ih hnodup.2 h

theorem buildPlatformGraph_edge_iff
    (ns : List PlatformNode) (mjh mjd : ℚ) (A B : PlatformNode)
    (hnodup : (ns.map (·.id)).Nodup) (hA : A ∈ ns) (hB : B ∈ ns)
    (hne : A.id ≠ B.id) :
    B.id ∈ edgesGet (buildPlatformGraph ns mjh mjd) A.id ↔
      (if 0 < A.top - B.top then
        A.top - B.top ≤ mjh ∧ |B.centerX - A.centerX| ≤ mjd
      else
        |B.centerX - A.centerX| ≤ mjd * (9 / 5)) := by
  have hinj : ∀ x ∈ ns, ∀ y ∈ ns, x.id = y.id → x = y :=
    List.inj_on_of_nodup_map hnodup
  -- The adjacency entry found for A.id is exactly A's entry.
  have hfind :
      (buildPlatformGraph ns mjh mjd).edges.find? (fun e => e.1 == A.id) =
        some (A.id,
          (ns.filter (fun b => A.id != b.id && edgeAllowed A b mjh mjd)).map
            (·.id)) := by
    rw [buildPlatformGraph]
    exact find?_map_assoc ns
      (fun a => (ns.filter
        (fun b => a.id != b.id && edgeAllowed a b mjh mjd)).map (·.id))
      A hnodup hA
  rw [edgesGet, hfind]
  simp only [List.mem_map, List.mem_filter]
  constructor
  · rintro ⟨b, ⟨hbmem, hcond⟩, hbid⟩
    have hbB : b = B := hinj b hbmem B hB hbid
    rw [hbB] at hcond
    simp only [Bool.and_eq_true, bne_iff_ne, ne_eq] at hcond
    have hc := hcond.2
    rw [edgeAllowed] at hc
    by_cases hrise : 0 < A.top - B.top
    · rw [if_pos hrise] at hc ⊢
      simpa [jsAbs_eq_abs] using hc
    · rw [if_neg hrise] at hc ⊢
      simpa [jsAbs_eq_abs] using hc
  · intro hcond
    refine ⟨B, ⟨hB, ?_⟩, rfl⟩
    simp only [Bool.and_eq_true, bne_iff_ne, ne_eq]
    refine ⟨hne, ?_⟩
    rw [edgeAllowed]
    by_cases hrise : 0 < A.top - B.top
    · rw [if_pos hrise] at hcond
      rw [if_pos hrise]
      simpa [jsAbs_eq_abs] using hcond
    · rw [if_neg hrise] at hcond
      rw [if_neg hrise]
      simpa [jsAbs_eq_abs] using hcond

/-- Witness for C6 at a concrete two-platform layout: the upward edge
0→1 exists (rise 100 ≤ maxJumpHeight 140, horizontal drift 60 ≤
maxJumpDistance 90), with every hypothesis of the theorem discharged on
the concrete nodes. -/
theorem buildPlatformGraph_edge_iff_witness :
    1 ∈ edgesGet
        (buildPlatformGraph
          [⟨0, 40, 160, 290, 310, 100, 120, 20, false⟩,
            ⟨1, 100, 220, 190, 210, 160, 120, 20, true⟩] 140 90) 0 := by
  have h := buildPlatformGraph_edge_iff
      [⟨0, 40, 160, 290, 310, 100, 120, 20, false⟩,
        ⟨1, 100, 220, 190, 210, 160, 120, 20, true⟩] 140 90
      ⟨0, 40, 160, 290, 310, 100, 120, 20, false⟩
      ⟨1, 100, 220, 190, 210, 160, 120, 20, true⟩
      (by decide) (by decide) (by decide) (by decide)
  rw [h]
  norm_num

/-! ## BFS pathfinding (findPlatformPath, src/game/stage/platformGraph.js)

The JS BFS keeps a FIFO queue and a cameFrom Map (insertion-ordered);
we model the Map as an association list in insertion order.  The JS
while-loop terminates because every Map insertion consumes one of the
finitely many edge targets; the Lean definition recurses on exactly that
measure. -/

/-- cameFrom.get(k): none = absent (JS undefined), some none = the
stored null parent of the start node. -/
def cfLookup (cf : List (Nat × Option Nat)) (k : Nat) : Option (Option Nat) :=
  (cf.find? (fun e => e.1 == k)).map (·.2)

/-- reconstructPath's while-loop: follow parent pointers from the goal
back to the start.  JS pushes each parent and reverses once at the end;
consing onto the accumulator builds the same (reversed) list directly.
The fuel argument bounds the JS while-loop: parent chains in any
BFS-produced map strictly descend the insertion order, so cf.length
steps always suffice (established by the invariant lemmas below). -/
def reconstructGo (cf : List (Nat × Option Nat)) (startId : Nat) :
    Nat → Nat → List Nat → Option (List Nat)
  | 0, current, path => if current = startId then some path else none
  | fuel + 1, current, path =>
      if current = startId then some path
      else
        match cfLookup cf current with
        | some (some p) => reconstructGo cf startId fuel p (p :: path)
        | _ => none

/-- reconstructPath(cameFrom, startId, goalId). -/
def reconstructPath (cf : List (Nat × Option Nat)) (startId goalId : Nat) :
    Option (List Nat) :=
  reconstructGo cf startId cf.length goalId [goalId]

/-- Outcome of scanning one node's neighbour list: either the early
return (the reconstructed path to the goal) or the nodes pushed onto the
queue together with the extended cameFrom map. -/
inductive BfsStep where
  | found (res : Option (List Nat))
  | cont (pushed : List Nat) (cf : List (Nat × Option Nat))
deriving DecidableEq, Repr

/-- The body of `for (const next of neighbors)`: skip visited
neighbours, record the parent of fresh ones, early-return on the goal,
otherwise push. -/
def bfsProcessNeighbors (startId goalId current : Nat) :
    List Nat → List (Nat × Option Nat) → BfsStep
  | [], cf => .cont [] cf
  | next :: ns, cf =>
      if (cfLookup cf next).isSome then
        bfsProcessNeighbors startId goalId current ns cf
      else
        let cf2 := cf ++ [(next, some current)]
        if next = goalId then .found (reconstructPath cf2 startId goalId)
        else
          match bfsProcessNeighbors startId goalId current ns cf2 with
          | .found r => .found r
          | .cont pushed cf3 => .cont (next :: pushed) cf3

/-- All ids that can ever be inserted by the BFS after the start: the
targets of the graph's adjacency lists, deduplicated. -/
def graphTargets (g : PlatformGraph) : List Nat :=
  ((g.edges.map (·.2)).flatten).dedup

/-- Number of potential insertions left (drives BFS termination). -/
def notVisitedCount (g : PlatformGraph) (cf : List (Nat × Option Nat)) :
    Nat :=
  ((graphTargets g).filter (fun i => (cfLookup cf i).isNone)).length

theorem edgesGet_subset_targets (g : PlatformGraph) (c : Nat) :
    ∀ n ∈ edgesGet g c, n ∈ graphTargets g := by
  intro n hn
  rw [edgesGet] at hn
  cases hfind : g.edges.find? (fun e => e.1 == c) with
  | none => rw [hfind] at hn; simp at hn
  | some e =>
      rw [hfind] at hn
      have hmem : e ∈ g.edges := List.mem_of_find?_eq_some hfind
      rw [graphTargets, List.mem_dedup]
      rw [List.mem_flatten]
      exact ⟨e.2, List.mem_map_of_mem (·.2) hmem, hn⟩

theorem cfLookup_append_cases (cf : List (Nat × Option Nat)) (k i : Nat)
    (v : Option Nat) :
    cfLookup (cf ++ [(k, v)]) i =
      ((cfLookup cf i).orElse (fun _ => if i = k then some v else none)) := by
  induction cf with
  | nil =>
      simp only [List.nil_append, cfLookup, List.find?]
      by_cases hik : i = k
      · subst hik
        simp [Option.orElse]
      · have hkv : ((k, v).1 == i) = false := by
          simp only [beq_eq_false_iff_ne, ne_eq]
          exact fun hh => hik hh.symm
        simp [hkv, hik, Option.orElse]
  | cons hd tl ih =>
      by_cases hpd : (hd.1 == i) = true
      · simp [cfLookup, List.find?_cons, hpd, Option.orElse]
      · have hpd2 : (hd.1 == i) = false := by simpa using hpd
        simpa [cfLookup, List.find?_cons, hpd2] using ih

theorem cfLookup_append_self (cf : List (Nat × Option Nat)) (k : Nat)
    (v : Option Nat) (h : cfLookup cf k = none) :
    cfLookup (cf ++ [(k, v)]) k = some v := by
  rw [cfLookup_append_cases, h]
  simp [Option.orElse]

theorem cfLookup_append_none (cf : List (Nat × Option Nat)) {k i : Nat}
    (v : Option Nat) (h : cfLookup cf i = none) (hik : i ≠ k) :
    cfLookup (cf ++ [(k, v)]) i = none := by
  rw [cfLookup_append_cases, h]
  simp [Option.orElse, hik]

/-- Inserting a fresh key leaves lookups of present keys unchanged. -/
theorem cfLookup_append_of_isSome {cf : List (Nat × Option Nat)} {i : Nat}
    (h : (cfLookup cf i).isSome) (k : Nat) (v : Option Nat) :
    cfLookup (cf ++ [(k, v)]) i = cfLookup cf i := by
  rw [cfLookup_append_cases]
  cases hx : cfLookup cf i with
  | some x => simp [Option.orElse]
  | none => rw [hx] at h; simp at h

theorem filter_length_point {l : List Nat} (hn : l.Nodup) {k : Nat}
    (hk : k ∈ l) {p p' : Nat → Bool}
    (hpk : p k = true) (hp'k : p' k = false)
    (hagree : ∀ i, i ≠ k → p' i = p i) :
    (l.filter p').length + 1 = (l.filter p).length := by
  induction l with
  | nil => simp at hk
  | cons hd tl ih =>
      rw [List.nodup_cons] at hn
      rcases List.mem_cons.mp hk with h | h
      · subst h
        have hl : tl.filter p' = tl.filter p :=
          List.filter_congr (fun i hi =>
            hagree i (fun he => hn.1 (he ▸ hi)))
        simp [List.filter_cons, hpk, hp'k, hl]
      · by_cases hhd : hd = k
        · subst hhd
          exact absurd h hn.1
        · have := ih hn.2 h
          rw [List.filter_cons, List.filter_cons, hagree hd hhd]
          cases hp : p hd <;> simp <;> omega

/-- A fresh insertion of a graph target decrements the potential count. -/
theorem notVisitedCount_append (g : PlatformGraph)
    (cf : List (Nat × Option Nat)) (k : Nat) (v : Option Nat)
    (hk : k ∈ graphTargets g) (hfresh : cfLookup cf k = none) :
    notVisitedCount g (cf ++ [(k, v)]) + 1 = notVisitedCount g cf := by
  unfold notVisitedCount
  refine filter_length_point (List.nodup_dedup _) hk ?_ ?_ ?_
  · simp [hfresh]
  · rw [cfLookup_append_self cf k v hfresh]
    simp
  · intro i hik
    rw [cfLookup_append_cases]
    cases hx : cfLookup cf i with
    | some x => simp [Option.orElse]
    | none => simp [Option.orElse, hik]

theorem bfsProcessNeighbors_cont_measure
    (g : PlatformGraph) (startId goalId current : Nat) :
    ∀ (ns : List Nat) (cf : List (Nat × Option Nat))
      (pushed : List Nat) (cf' : List (Nat × Option Nat)),
    (∀ n ∈ ns, n ∈ graphTargets g) →
    bfsProcessNeighbors startId goalId current ns cf = .cont pushed cf' →
    notVisitedCount g cf' + pushed.length ≤ notVisitedCount g cf := by
  intro ns
  induction ns with
  | nil =>
      intro cf pushed cf' _ h
      rw [bfsProcessNeighbors] at h
      cases h
      simp
  | cons next rest ih =>
      intro cf pushed cf' hsub h
      rw [bfsProcessNeighbors] at h
      by_cases hvis : (cfLookup cf next).isSome
      · rw [if_pos hvis] at h
        exact ih cf pushed cf' (fun n hn => hsub n (List.mem_cons_of_mem _ hn)) h
      · rw [if_neg hvis] at h
        by_cases hgoal : next = goalId
        · rw [if_pos hgoal] at h
          cases h
        · rw [if_neg hgoal] at h
          have hfresh : cfLookup cf next = none :=
            Option.not_isSome_iff_eq_none.mp hvis
          have hdec :=
            notVisitedCount_append g cf next (some current)
              (hsub next (List.mem_cons_self _ _)) hfresh
          cases hrec : bfsProcessNeighbors startId goalId current rest
              (cf ++ [(next, some current)]) with
          | found r => rw [hrec] at h; cases h
          | cont pushed2 cf3 =>
              rw [hrec] at h
              cases h
              have := ih (cf ++ [(next, some current)]) pushed2 cf'
                (fun n hn => hsub n (List.mem_cons_of_mem _ hn)) hrec
              simp only [List.length_cons]
              omega

/-- The BFS while-loop: pop the queue head, scan its neighbours,
early-return the reconstructed path when the goal is reached, otherwise
push the fresh neighbours and continue; an empty queue means the goal is
unreachable. -/
def bfsLoop (g : PlatformGraph) (startId goalId : Nat) :
    List Nat → List (Nat × Option Nat) → Option (List Nat)
  | [], _ => none
  | current :: rest, cf =>
      match h : bfsProcessNeighbors startId goalId current
          (edgesGet g current) cf with
      | .found r => r
      | .cont pushed cf' => bfsLoop g startId goalId (rest ++ pushed) cf'
termination_by queue cf => notVisitedCount g cf + queue.length
decreasing_by
  have hm := bfsProcessNeighbors_cont_measure g startId goalId next
    (edgesGet g next) cf pushed cf'
    (edgesGet_subset_targets g next) h
  simp only [List.length_append, List.length_cons]
  omega

/-- findPlatformPath(graph, startId, goalId): null ids give null, equal
ids give the single-node path, otherwise run the BFS with the start
enqueued and recorded with a null parent. -/
def findPlatformPath (g : PlatformGraph) (startId goalId : Option Nat) :
    Option (List Nat) :=
  match startId, goalId with
  | some s, some t =>
      if s = t then some [s]
      else bfsLoop g s t [s] [(s, none)]
  | _, _ => none

/-! ### Correctness of findPlatformPath (claim C5)

Path validity: the list starts at the start id, ends at the goal id and
each consecutive pair is a directed edge of the graph (written from the
spec sentence "a sequence of valid edges connects start to goal"). -/

/-- A valid path from s to t in graph g. -/
def IsPath (g : PlatformGraph) (s t : Nat) (p : List Nat) : Prop :=
  p.head? = some s ∧ p.getLast? = some t ∧
    List.Chain' (fun a b => b ∈ edgesGet g a) p

theorem IsPath.length_pos {g : PlatformGraph} {s t : Nat} {p : List Nat}
    (h : IsPath g s t p) : 1 ≤ p.length := by
  rcases p with _ | ⟨a, rest⟩
  · simp [IsPath] at h
  · simp

theorem IsPath.single (g : PlatformGraph) (s : Nat) : IsPath g s s [s] := by
  refine ⟨rfl, rfl, ?_⟩
  simp

/-- Extending a path by one edge. -/
theorem IsPath.append_edge {g : PlatformGraph} {s u w : Nat} {p : List Nat}
    (h : IsPath g s u p) (hw : w ∈ edgesGet g u) :
    IsPath g s w (p ++ [w]) := by
  obtain ⟨hhead, hlast, hchain⟩ := h
  have hne : p ≠ [] := by
    intro he
    rw [he] at hhead
    simp at hhead
  refine ⟨?_, ?_, ?_⟩
  · rw [List.head?_append_of_ne_nil _ hne]
    exact hhead
  · simp [List.getLast?_concat]
  · rw [List.chain'_append]
    refine ⟨hchain, by simp, ?_⟩
    intro x hx y hy
    simp only [List.head?_cons, Option.mem_def, Option.some.injEq] at hy
    subst hy
    rw [hlast] at hx
    simp only [Option.mem_def, Option.some.injEq] at hx
    subst hx
    exact hw

/-- Splitting the last edge off a path that does not stop at its start.
The JS BFS relies on this shape when arguing about the frontier. -/
theorem IsPath.decompose {g : PlatformGraph} {s w : Nat} {q : List Nat}
    (h : IsPath g s w q) (hne : w ≠ s) :
    ∃ q2 u, q = q2 ++ [w] ∧ IsPath g s u q2 ∧ w ∈ edgesGet g u := by
  obtain ⟨hhead, hlast, hchain⟩ := h
  have hq : q ≠ [] := by
    intro he
    rw [he] at hhead
    simp at hhead
  rcases List.eq_nil_or_concat q with rfl | ⟨q2, a, rfl⟩
  · exact absurd rfl hq
  simp only [List.concat_eq_append] at hhead hlast hchain hq ⊢
  have haw : a = w := by
    rw [List.getLast?_concat] at hlast
    simpa using hlast
  have hq2 : q2 ≠ [] := by
    rintro rfl
    apply hne
    rw [← haw]
    have : a = s := by simpa using hhead
    exact this
  rw [List.chain'_append] at hchain
  rcases List.eq_nil_or_concat q2 with rfl | ⟨q3, u, rfl⟩
  · exact absurd rfl hq2
  simp only [List.concat_eq_append] at hhead hchain hq2 ⊢
  have hu : (q3 ++ [u]).getLast? = some u := List.getLast?_concat _
  refine ⟨q3 ++ [u], u, by rw [haw], ⟨?_, hu, hchain.1⟩, ?_⟩
  · rw [List.head?_append_of_ne_nil _ hq2] at hhead
    exact hhead
  · have := hchain.2.2 u (by simpa using hu) a (by simp)
    rwa [haw] at this

/-- Closure argument: if the visited set contains s and is closed under
edges, every path from s ends in it. -/
theorem visited_closed_path {g : PlatformGraph} {vis : Nat → Prop}
    (hclosed : ∀ v, vis v → ∀ w ∈ edgesGet g v, vis w) :
    ∀ (q : List Nat) (s t : Nat), vis s → IsPath g s t q → vis t := by
  intro q
  induction q with
  | nil =>
      intro s t hs h
      simp [IsPath] at h
  | cons a rest ih =>
      intro s t hs h
      obtain ⟨hhead, hlast, hchain⟩ := h
      have has : a = s := by simpa using hhead
      cases rest with
      | nil =>
          have hat : a = t := by simpa using hlast
          rw [← hat, has]
          exact hs
      | cons b rest2 =>
          rw [List.chain'_cons] at hchain
          have hb : vis b := hclosed a (has.symm ▸ hs) b hchain.1
          exact ih b t hb ⟨rfl, by simpa using hlast, hchain.2⟩

/-! Reconstruction lemmas: fuel monotonicity, stability under appending
fresh cameFrom entries, and the accumulator law. -/

theorem reconstructGo_fuel_mono
    {cf : List (Nat × Option Nat)} {startId : Nat} :
    ∀ {fuel : Nat} {v : Nat} {acc r : List Nat},
    reconstructGo cf startId fuel v acc = some r →
    ∀ {fuel2 : Nat}, fuel ≤ fuel2 →
    reconstructGo cf startId fuel2 v acc = some r := by
  intro fuel
  induction fuel with
  | zero =>
      intro v acc r h fuel2 _
      rw [reconstructGo] at h
      by_cases hv : v = startId
      · rw [if_pos hv] at h
        cases fuel2 with
        | zero => rw [reconstructGo, if_pos hv]; exact h
        | succ f => rw [reconstructGo, if_pos hv]; exact h
      · rw [if_neg hv] at h
        cases h
  | succ f ih =>
      intro v acc r h fuel2 hle
      rw [reconstructGo] at h
      by_cases hv : v = startId
      · rw [if_pos hv] at h
        cases fuel2 with
        | zero => rw [reconstructGo, if_pos hv]; exact h
        | succ f2 => rw [reconstructGo, if_pos hv]; exact h
      · rw [if_neg hv] at h
        cases fuel2 with
        | zero => omega
        | succ f2 =>
            rw [reconstructGo, if_neg hv]
            cases hl : cfLookup cf v with
            | none => rw [hl] at h; cases h
            | some x =>
                rw [hl] at h
                cases x with
                | none => cases h
                | some p => exact ih h (by omega)

theorem reconstructGo_append
    {cf : List (Nat × Option Nat)} {startId : Nat} (k : Nat)
    (x : Option Nat) :
    ∀ {fuel : Nat} {v : Nat} {acc r : List Nat},
    reconstructGo cf startId fuel v acc = some r →
    reconstructGo (cf ++ [(k, x)]) startId fuel v acc = some r := by
  intro fuel
  induction fuel with
  | zero =>
      intro v acc r h
      rw [reconstructGo] at h ⊢
      by_cases hv : v = startId
      · rw [if_pos hv] at h ⊢; exact h
      · rw [if_neg hv] at h; cases h
  | succ f ih =>
      intro v acc r h
      rw [reconstructGo] at h ⊢
      by_cases hv : v = startId
      · rw [if_pos hv] at h ⊢; exact h
      · rw [if_neg hv] at h ⊢
        cases hl : cfLookup cf v with
        | none => rw [hl] at h; cases h
        | some y =>
            rw [hl] at h
            rw [cfLookup_append_of_isSome (by simp [hl]) k x, hl]
            cases y with
            | none => cases h
            | some p => exact ih h

theorem reconstructGo_acc
    {cf : List (Nat × Option Nat)} {startId : Nat} :
    ∀ {fuel : Nat} {v : Nat} {acc1 : List Nat} (acc2 : List Nat)
      {r : List Nat},
    reconstructGo cf startId fuel v acc1 = some r →
    reconstructGo cf startId fuel v (acc1 ++ acc2) = some (r ++ acc2) := by
  intro fuel
  induction fuel with
  | zero =>
      intro v acc1 acc2 r h
      rw [reconstructGo] at h ⊢
      by_cases hv : v = startId
      · rw [if_pos hv] at h ⊢
        cases h
        rfl
      · rw [if_neg hv] at h; cases h
  | succ f ih =>
      intro v acc1 acc2 r h
      rw [reconstructGo] at h ⊢
      by_cases hv : v = startId
      · rw [if_pos hv] at h ⊢
        cases h
        rfl
      · rw [if_neg hv] at h ⊢
        cases hl : cfLookup cf v with
        | none => rw [hl] at h; simp at h
        | some y =>
            rw [hl] at h
            cases y with
            | none => simp at h
            | some p =>
                have h3 := ih acc2 h
                simpa using h3

/-- Stability of a successful reconstruction under a fresh insertion. -/
theorem reconstructPath_append {cf : List (Nat × Option Nat)}
    {startId v : Nat} {r : List Nat}
    (h : reconstructPath cf startId v = some r) (k : Nat) (x : Option Nat) :
    reconstructPath (cf ++ [(k, x)]) startId v = some r := by
  rw [reconstructPath] at h ⊢
  have h2 := reconstructGo_append k x h
  exact reconstructGo_fuel_mono h2 (by simp)

/-- Reconstruction for a freshly inserted node: its path is the parent's
path extended by the node. -/
theorem reconstructPath_insert {cf : List (Nat × Option Nat)}
    {startId c : Nat} {p : List Nat}
    (hc : reconstructPath cf startId c = some p) {w : Nat}
    (hw : cfLookup cf w = none) (hws : w ≠ startId) :
    reconstructPath (cf ++ [(w, some c)]) startId w = some (p ++ [w]) := by
  rw [reconstructPath]
  have hlen : (cf ++ [(w, some c)]).length = cf.length + 1 := by simp
  rw [hlen, reconstructGo, if_neg hws,
    cfLookup_append_self cf w (some c) hw]
  rw [reconstructPath] at hc
  have h1 : reconstructGo (cf ++ [(w, some c)]) startId cf.length c [c] =
      some p := reconstructGo_append w (some c) hc
  have h2 := reconstructGo_acc [w] h1
  simpa using h2

/-- Node count of the reconstructed path to v (0 when absent); the BFS
level of a visited node. -/
def reconLen (cf : List (Nat × Option Nat)) (s v : Nat) : Nat :=
  match reconstructPath cf s v with
  | some p => p.length
  | none => 0

/-- The BFS loop invariant over (queue, cameFrom): every visited node
reconstructs to a shortest valid path, queue members are visited,
processed nodes have all neighbours visited, the start is visited and
the goal is not (the loop would have returned otherwise). -/
structure BfsInvCore (g : PlatformGraph) (s t : Nat)
    (queue : List Nat) (cf : List (Nat × Option Nat)) : Prop where
  recon : ∀ v, (cfLookup cf v).isSome →
    ∃ p, reconstructPath cf s v = some p ∧ IsPath g s v p ∧
      ∀ q, IsPath g s v q → p.length ≤ q.length
  qvis : ∀ v ∈ queue, (cfLookup cf v).isSome
  closure : ∀ v, (cfLookup cf v).isSome → v ∉ queue →
    ∀ w ∈ edgesGet g v, (cfLookup cf w).isSome
  startVis : (cfLookup cf s).isSome
  goalNone : cfLookup cf t = none

/-- Every path reaching an unvisited node is strictly longer than the
minimum queue level: it must leave the visited set through a queue
member. -/
theorem unvisited_lower_bound {g : PlatformGraph} {s t : Nat}
    {queue : List Nat} {cf : List (Nat × Option Nat)}
    (inv : BfsInvCore g s t queue cf) {d : Nat}
    (hlb : ∀ v ∈ queue, d ≤ reconLen cf s v) :
    ∀ (n : Nat) (q : List Nat) (w : Nat), q.length ≤ n →
      cfLookup cf w = none → IsPath g s w q → d + 1 ≤ q.length := by
  intro n
  induction n with
  | zero =>
      intro q w hlen hw hq
      have := hq.length_pos
      omega
  | succ m ih =>
      intro q w hlen hw hq
      have hws : w ≠ s := by
        intro he
        have hs := inv.startVis
        rw [← he, hw] at hs
        simp at hs
      obtain ⟨q2, u, rfl, hq2, hedge⟩ := hq.decompose hws
      by_cases hu : (cfLookup cf u).isSome
      · have huq : u ∈ queue := by
          by_contra habs
          have := inv.closure u hu habs w hedge
          rw [hw] at this
          simp at this
        have hge : d ≤ reconLen cf s u := hlb u huq
        obtain ⟨p, hp, _, hmin⟩ := inv.recon u hu
        have hpl : reconLen cf s u = p.length := by simp [reconLen, hp]
        have h2 := hmin q2 hq2
        simp only [List.length_append, List.length_cons, List.length_nil]
        omega
      · have hu2 : cfLookup cf u = none :=
          Option.not_isSome_iff_eq_none.mp hu
        have hlen2 : q2.length ≤ m := by
          simp only [List.length_append, List.length_cons,
            List.length_nil] at hlen
          omega
        have := ih q2 u hlen2 hu2 hq2
        simp only [List.length_append, List.length_cons, List.length_nil]
        omega

/-- Invariant maintenance across one neighbour scan.  `rest` is the rest
of the queue, `extra` the nodes already pushed during this scan (level
d + 1, where d is the level of the node being processed).  On the early
return the result is a shortest valid path to the goal; otherwise all
invariant pieces carry over to the extended queue and map. -/
theorem bfsProcessNeighbors_invariant (g : PlatformGraph)
    (s t current : Nat) (rest : List Nat) :
    ∀ (ns : List Nat) (cf : List (Nat × Option Nat)) (extra : List Nat)
      (d : Nat),
    (∀ n ∈ ns, n ∈ edgesGet g current) →
    (∀ w ∈ edgesGet g current, (cfLookup cf w).isSome ∨ w ∈ ns) →
    BfsInvCore g s t (current :: (rest ++ extra)) cf →
    reconLen cf s current = d →
    (∀ v ∈ current :: (rest ++ extra), d ≤ reconLen cf s v) →
    (match bfsProcessNeighbors s t current ns cf with
     | .found r => ∃ p, r = some p ∧ IsPath g s t p ∧
         ∀ q, IsPath g s t q → p.length ≤ q.length
     | .cont pushed cf2 =>
         BfsInvCore g s t (rest ++ (extra ++ pushed)) cf2 ∧
         (∀ v, (cfLookup cf v).isSome → (cfLookup cf2 v).isSome) ∧
         (∀ v, (cfLookup cf v).isSome →
           reconLen cf2 s v = reconLen cf s v) ∧
         (∀ v ∈ pushed, reconLen cf2 s v = d + 1) ∧
         (∀ v ∈ rest ++ (extra ++ pushed), d ≤ reconLen cf2 s v)) := by
  intro ns
  induction ns with
  | nil =>
      intro cf extra d hns hcov inv hcur hlb
      rw [bfsProcessNeighbors]
      refine ⟨?_, fun v hv => hv, fun v _ => rfl, by simp, ?_⟩
      · refine ⟨inv.recon, ?_, ?_, inv.startVis, inv.goalNone⟩
        · intro v hv
          have hv2 : v ∈ rest ++ extra := by simpa using hv
          exact inv.qvis v (List.mem_cons_of_mem _ hv2)
        · intro v hv hvq w hw
          by_cases hvc : v = current
          · subst hvc
            rcases hcov w hw with h | h
            · exact h
            · simp at h
          · exact inv.closure v hv
              (by
                intro hmem
                rcases List.mem_cons.mp hmem with h | h
                · exact hvc h
                · exact hvq (by simpa using h)) w hw
      · intro v hv
        exact hlb v (List.mem_cons_of_mem _ (by simpa using hv))
  | cons next ns2 ih =>
      intro cf extra d hns hcov inv hcur hlb
      rw [bfsProcessNeighbors]
      by_cases hvis : (cfLookup cf next).isSome
      · rw [if_pos hvis]
        exact ih cf extra d
          (fun n hn => hns n (List.mem_cons_of_mem _ hn))
          (fun w hw => by
            rcases hcov w hw with h | h
            · exact Or.inl h
            · rcases List.mem_cons.mp h with h2 | h2
              · exact Or.inl (h2 ▸ hvis)
              · exact Or.inr h2)
          inv hcur hlb
      · rw [if_neg hvis]
        have hfresh : cfLookup cf next = none :=
          Option.not_isSome_iff_eq_none.mp hvis
        have hnexts : next ≠ s := by
          intro he
          have hs := inv.startVis
          rw [← he, hfresh] at hs
          simp at hs
        -- parent data for the new node
        obtain ⟨pc, hpc, hpcPath, hpcMin⟩ :=
          inv.recon current (inv.qvis current (by simp))
        have hpcLen : pc.length = d := by
          rw [← hcur]
          simp [reconLen, hpc]
        have hedge : next ∈ edgesGet g current := hns next (by simp)
        have hreconNext :
            reconstructPath (cf ++ [(next, some current)]) s next =
              some (pc ++ [next]) :=
          reconstructPath_insert hpc hfresh hnexts
        have hnextPath : IsPath g s next (pc ++ [next]) :=
          hpcPath.append_edge hedge
        have hnextMin : ∀ q, IsPath g s next q →
            (pc ++ [next]).length ≤ q.length := by
          intro q hq
          have := unvisited_lower_bound inv hlb q.length q next le_rfl
            hfresh hq
          simp only [List.length_append, List.length_cons, List.length_nil]
          omega
        -- facts about the extended map
        have hvisMono : ∀ v, (cfLookup cf v).isSome →
            (cfLookup (cf ++ [(next, some current)]) v).isSome := by
          intro v hv
          rw [cfLookup_append_of_isSome hv]
          exact hv
        have hreconPres : ∀ v, (cfLookup cf v).isSome →
            reconLen (cf ++ [(next, some current)]) s v =
              reconLen cf s v := by
          intro v hv
          obtain ⟨p, hp, _, _⟩ := inv.recon v hv
          rw [reconLen, reconLen, hp, reconstructPath_append hp]
        have hlenNext :
            reconLen (cf ++ [(next, some current)]) s next = d + 1 := by
          rw [reconLen, hreconNext]
          simp [hpcLen]
        by_cases hgoal : next = t
        · rw [if_pos hgoal]
          rw [← hgoal]
          exact ⟨pc ++ [next], hreconNext, hnextPath, hnextMin⟩
        · rw [if_neg hgoal]
          have hinv2 : BfsInvCore g s t
              (current :: (rest ++ (extra ++ [next])))
              (cf ++ [(next, some current)]) := by
            refine ⟨?_, ?_, ?_, hvisMono s inv.startVis, ?_⟩
            · intro v hv
              by_cases hvn : v = next
              · rw [hvn]
                exact ⟨pc ++ [next], hreconNext, hnextPath, hnextMin⟩
              · have hv2 : (cfLookup cf v).isSome := by
                  rw [cfLookup_append_cases] at hv
                  cases hx : cfLookup cf v with
                  | some x => simp [hx]
                  | none =>
                      rw [hx] at hv
                      simp [Option.orElse, hvn] at hv
                obtain ⟨p, hp, hpath, hmin⟩ := inv.recon v hv2
                exact ⟨p, reconstructPath_append hp _ _, hpath, hmin⟩
            · intro v hv
              rcases List.mem_cons.mp hv with h | h
              · subst h
                exact hvisMono v (inv.qvis v (by simp))
              · rcases List.mem_append.mp h with h2 | h2
                · exact hvisMono v (inv.qvis v
                    (List.mem_cons_of_mem _ (List.mem_append_left _ h2)))
                · rcases List.mem_append.mp h2 with h3 | h3
                  · exact hvisMono v (inv.qvis v (List.mem_cons_of_mem _
                      (List.mem_append_right _ h3)))
                  · simp only [List.mem_singleton] at h3
                    rw [h3, cfLookup_append_self cf next (some current) hfresh]
                    simp
            · intro v hv hvq w hw
              have hvn : v ≠ next := by
                intro he
                exact hvq (by simp [he])
              have hv2 : (cfLookup cf v).isSome := by
                rw [cfLookup_append_cases] at hv
                cases hx : cfLookup cf v with
                | some x => simp [hx]
                | none =>
                    rw [hx] at hv
                    simp [Option.orElse, hvn] at hv
              have hvq2 : v ∉ current :: (rest ++ extra) := by
                intro hmem
                apply hvq
                rcases List.mem_cons.mp hmem with h | h
                · rw [h]
                  exact List.mem_cons_self _ _
                · rcases List.mem_append.mp h with h2 | h2
                  · exact List.mem_cons_of_mem _ (List.mem_append_left _ h2)
                  · exact List.mem_cons_of_mem _ (List.mem_append_right _
                      (List.mem_append_left _ h2))
              exact hvisMono w (inv.closure v hv2 hvq2 w hw)
            · rw [cfLookup_append_none cf (some current) inv.goalNone
                (fun he => hgoal he.symm)]
          have hlb2 : ∀ v ∈ current :: (rest ++ (extra ++ [next])),
              d ≤ reconLen (cf ++ [(next, some current)]) s v := by
            intro v hv
            rcases List.mem_cons.mp hv with h | h
            · subst h
              rw [hreconPres v (inv.qvis v (by simp))]
              exact hlb v (by simp)
            · rcases List.mem_append.mp h with h2 | h2
              · rw [hreconPres v (inv.qvis v
                  (List.mem_cons_of_mem _ (List.mem_append_left _ h2)))]
                exact hlb v
                  (List.mem_cons_of_mem _ (List.mem_append_left _ h2))
              · rcases List.mem_append.mp h2 with h3 | h3
                · rw [hreconPres v (inv.qvis v (List.mem_cons_of_mem _
                    (List.mem_append_right _ h3)))]
                  exact hlb v
                    (List.mem_cons_of_mem _ (List.mem_append_right _ h3))
                · simp only [List.mem_singleton] at h3
                  rw [h3, hlenNext]
                  omega
          have hcur2 : reconLen (cf ++ [(next, some current)]) s current =
              d := by
            rw [hreconPres current (inv.qvis current (by simp))]
            exact hcur
          have hrec := ih (cf ++ [(next, some current)]) (extra ++ [next]) d
            (fun n hn => hns n (List.mem_cons_of_mem _ hn))
            (fun w hw => by
              rcases hcov w hw with h | h
              · exact Or.inl (hvisMono w h)
              · rcases List.mem_cons.mp h with h2 | h2
                · subst h2
                  exact Or.inl (by
                    rw [cfLookup_append_self cf w (some current) hfresh]
                    simp)
                · exact Or.inr h2)
            hinv2 hcur2 hlb2
          cases hstep : bfsProcessNeighbors s t current ns2
              (cf ++ [(next, some current)]) with
          | found r =>
              rw [hstep] at hrec
              exact hrec
          | cont pushed2 cf3 =>
              rw [hstep] at hrec
              obtain ⟨inv3, hmono3, hpres3, hnew3, hlb3⟩ := hrec
              have hlist : rest ++ ((extra ++ [next]) ++ pushed2) =
                  rest ++ (extra ++ (next :: pushed2)) := by
                simp
              refine ⟨?_, ?_, ?_, ?_, ?_⟩
              · rw [← hlist]
                exact inv3
              · intro v hv
                exact hmono3 v (hvisMono v hv)
              · intro v hv
                rw [hpres3 v (hvisMono v hv)]
                exact hreconPres v hv
              · intro v hv
                rcases List.mem_cons.mp hv with h | h
                · rw [h, hpres3 next (by
                    rw [cfLookup_append_self cf next (some current) hfresh]
                    simp)]
                  exact hlenNext
                · exact hnew3 v h
              · rw [hlist] at hlb3
                exact hlb3

theorem bfsLoop_nil (g : PlatformGraph) (s t : Nat)
    (cf : List (Nat × Option Nat)) : bfsLoop g s t [] cf = none := by
  rw [bfsLoop]

theorem bfsLoop_cons (g : PlatformGraph) (s t current : Nat)
    (rest : List Nat) (cf : List (Nat × Option Nat)) :
    bfsLoop g s t (current :: rest) cf =
      (match bfsProcessNeighbors s t current (edgesGet g current) cf with
       | .found r => r
       | .cont pushed cf2 => bfsLoop g s t (rest ++ pushed) cf2) := by
  rw [bfsLoop]
  rcases bfsProcessNeighbors s t current (edgesGet g current) cf with
    r | ⟨pushed, cf2⟩ <;> rfl

/-- After popping the queue head, the two-level split renormalizes: the
head's level bounds the whole queue from below. -/
theorem levels_normalize {lvl : Nat → Nat} {current : Nat}
    {rest qa qb : List Nat} {d : Nat}
    (hq : current :: rest = qa ++ qb)
    (ha : ∀ v ∈ qa, lvl v = d) (hb : ∀ v ∈ qb, lvl v = d + 1) :
    ∃ d2 ra rb, rest = ra ++ rb ∧ lvl current = d2 ∧
      (∀ v ∈ ra, lvl v = d2) ∧ (∀ v ∈ rb, lvl v = d2 + 1) ∧
      (∀ v ∈ current :: rest, d2 ≤ lvl v) := by
  cases qa with
  | nil =>
      simp only [List.nil_append] at hq
      refine ⟨d + 1, rest, [], by simp, ?_, ?_, by simp, ?_⟩
      · exact hb current (by rw [← hq]; exact List.mem_cons_self _ _)
      · intro v hv
        exact hb v (by
          rw [← hq]
          exact List.mem_cons_of_mem _ hv)
      · intro v hv
        rw [hb v (by rw [← hq]; exact hv)]
  | cons x qa2 =>
      rw [List.cons_append] at hq
      injection hq with h1 h2
      subst h1
      subst h2
      refine ⟨d, qa2, qb, rfl, ha current (by simp), ?_, hb, ?_⟩
      · intro v hv
        exact ha v (List.mem_cons_of_mem _ hv)
      · intro v hv
        rcases List.mem_cons.mp hv with h | h
        · rw [h, ha current (by simp)]
        · rcases List.mem_append.mp h with h2 | h2
          · rw [ha v (List.mem_cons_of_mem _ h2)]
          · rw [hb v h2]
            omega

/-- BFS loop correctness by strong induction on the termination
measure. -/
theorem bfsLoop_correct (g : PlatformGraph) (s t : Nat) :
    ∀ (n : Nat) (queue : List Nat) (cf : List (Nat × Option Nat)),
    notVisitedCount g cf + queue.length ≤ n →
    BfsInvCore g s t queue cf →
    (∃ d qa qb, queue = qa ++ qb ∧ (∀ v ∈ qa, reconLen cf s v = d) ∧
      (∀ v ∈ qb, reconLen cf s v = d + 1)) →
    (match bfsLoop g s t queue cf with
     | some p => IsPath g s t p ∧ ∀ q, IsPath g s t q → p.length ≤ q.length
     | none => ¬ ∃ q, IsPath g s t q) := by
  intro n
  induction n with
  | zero =>
      intro queue cf hm inv _
      have hq : queue = [] := by
        cases queue with
        | nil => rfl
        | cons a b => simp at hm
      subst hq
      rw [bfsLoop_nil]
      rintro ⟨q, hq⟩
      have hvt := visited_closed_path
        (fun v hv => inv.closure v hv (by simp)) q s t inv.startVis hq
      rw [inv.goalNone] at hvt
      simp at hvt
  | succ m ih =>
      intro queue cf hm inv hsplit
      cases queue with
      | nil =>
          rw [bfsLoop_nil]
          rintro ⟨q, hq⟩
          have hvt := visited_closed_path
            (fun v hv => inv.closure v hv (by simp)) q s t inv.startVis hq
          rw [inv.goalNone] at hvt
          simp at hvt
      | cons current rest =>
          rw [bfsLoop_cons]
          obtain ⟨d, qa, qb, hq, ha, hb⟩ := hsplit
          obtain ⟨d2, ra, rb, hrest, hcur, hra, hrb, hlbq⟩ :=
            levels_normalize hq ha hb
          have inv2 : BfsInvCore g s t (current :: (rest ++ [])) cf := by
            rw [List.append_nil]
            exact inv
          have hlb2 : ∀ v ∈ current :: (rest ++ []),
              d2 ≤ reconLen cf s v := by
            rw [List.append_nil]
            exact hlbq
          have hpn := bfsProcessNeighbors_invariant g s t current rest
            (edgesGet g current) cf [] d2 (fun n hn => hn)
            (fun w hw => Or.inr hw) inv2 hcur hlb2
          cases hstep : bfsProcessNeighbors s t current
              (edgesGet g current) cf with
          | found r =>
              rw [hstep] at hpn
              obtain ⟨p, rfl, hp, hmin⟩ := hpn
              exact ⟨hp, hmin⟩
          | cont pushed cf2 =>
              rw [hstep] at hpn
              obtain ⟨inv3, hmono, hpres, hnew, hlb3⟩ := hpn
              have hmeas := bfsProcessNeighbors_cont_measure g s t current
                (edgesGet g current) cf pushed cf2
                (edgesGet_subset_targets g current) hstep
              have hm2 : notVisitedCount g cf2 +
                  (rest ++ pushed).length ≤ m := by
                simp only [List.length_append]
                simp only [List.length_cons] at hm
                omega
              have inv4 : BfsInvCore g s t (rest ++ pushed) cf2 := by
                have := inv3
                rw [List.nil_append] at this
                exact this
              have hsplit2 : ∃ d3 qa3 qb3, rest ++ pushed = qa3 ++ qb3 ∧
                  (∀ v ∈ qa3, reconLen cf2 s v = d3) ∧
                  (∀ v ∈ qb3, reconLen cf2 s v = d3 + 1) := by
                refine ⟨d2, ra, rb ++ pushed, by rw [hrest, List.append_assoc],
                  ?_, ?_⟩
                · intro v hv
                  rw [hpres v (inv.qvis v (by
                      rw [hrest]
                      exact List.mem_cons_of_mem _ (List.mem_append_left _ hv)))]
                  exact hra v hv
                · intro v hv
                  rcases List.mem_append.mp hv with h2 | h2
                  · rw [hpres v (inv.qvis v (by
                        rw [hrest]
                        exact List.mem_cons_of_mem _
                          (List.mem_append_right _ h2)))]
                    exact hrb v h2
                  · exact hnew v h2
              exact ih (rest ++ pushed) cf2 hm2 inv4 hsplit2

/-- C5: findPlatformPath returns a non-null list iff the goal platform
is reachable from the start along directed edges of the graph; any
returned list is a valid path (starts at startId, ends at goalId, each
consecutive pair an edge) of minimal node count (equivalently, minimal
hop count); unreachable goals and null endpoints give null. -/
theorem findPlatformPath_correct (g : PlatformGraph) (s t : Nat) :
    (∀ p, findPlatformPath g (some s) (some t) = some p →
      IsPath g s t p ∧ ∀ q, IsPath g s t q → p.length ≤ q.length) ∧
    ((findPlatformPath g (some s) (some t)).isSome ↔
      ∃ p, IsPath g s t p) ∧
    findPlatformPath g none (some t) = none ∧
    findPlatformPath g (some s) none = none := by
  refine ⟨?_, ?_, rfl, rfl⟩ <;> by_cases hst : s = t
  · subst hst
    intro p hp
    rw [findPlatformPath, if_pos rfl] at hp
    cases hp
    exact ⟨IsPath.single g s, fun q hq => hq.length_pos⟩
  · intro p hp
    rw [findPlatformPath, if_neg hst] at hp
    have hrun := bfsLoop_correct g s t
      (notVisitedCount g [(s, none)] + 1) [s] [(s, none)] (by simp)
      ?_ ?_
    · rw [hp] at hrun
      exact hrun
    · refine ⟨?_, ?_, ?_, ?_, ?_⟩
      · intro v hv
        have hvs : v = s := by
          rw [cfLookup] at hv
          by_cases h : s = v
          · exact h.symm
          · exfalso
            have : ((s, (none : Option Nat)).1 == v) = false := by
              simpa using h
            simp [List.find?, this] at hv
        subst hvs
        refine ⟨[v], ?_, IsPath.single g v, fun q hq => hq.length_pos⟩
        rw [reconstructPath]
        simp [reconstructGo]
      · intro v hv
        simp only [List.mem_singleton] at hv
        subst hv
        simp [cfLookup, List.find?]
      · intro v hv hvq w hw
        exfalso
        apply hvq
        rw [cfLookup] at hv
        by_cases h : s = v
        · simp [h]
        · exfalso
          have : ((s, (none : Option Nat)).1 == v) = false := by simpa using h
          simp [List.find?, this] at hv
      · simp [cfLookup, List.find?]
      · rw [cfLookup]
        have : ((s, (none : Option Nat)).1 == t) = false := by simpa using hst
        simp [List.find?, this]
    · refine ⟨1, [s], [], by simp, ?_, by simp⟩
      intro v hv
      simp only [List.mem_singleton] at hv
      subst hv
      rw [reconLen, reconstructPath]
      simp [reconstructGo]
  · subst hst
    rw [findPlatformPath, if_pos rfl]
    simp only [Option.isSome_some, true_iff]
    exact ⟨[s], IsPath.single g s⟩
  · rw [findPlatformPath, if_neg hst]
    have hrun := bfsLoop_correct g s t
      (notVisitedCount g [(s, none)] + 1) [s] [(s, none)] (by simp)
      ?_ ?_
    · cases hres : bfsLoop g s t [s] [(s, none)] with
      | some p =>
          rw [hres] at hrun
          simp only [hres, Option.isSome_some, true_iff]
          exact ⟨p, hrun.1⟩
      | none =>
          rw [hres] at hrun
          simp only [hres, Option.isSome_none, Bool.false_eq_true, false_iff]
          exact hrun
    · refine ⟨?_, ?_, ?_, ?_, ?_⟩
      · intro v hv
        have hvs : v = s := by
          rw [cfLookup] at hv
          by_cases h : s = v
          · exact h.symm
          · exfalso
            have : ((s, (none : Option Nat)).1 == v) = false := by
              simpa using h
            simp [List.find?, this] at hv
        subst hvs
        refine ⟨[v], ?_, IsPath.single g v, fun q hq => hq.length_pos⟩
        rw [reconstructPath]
        simp [reconstructGo]
      · intro v hv
        simp only [List.mem_singleton] at hv
        subst hv
        simp [cfLookup, List.find?]
      · intro v hv hvq w hw
        exfalso
        apply hvq
        rw [cfLookup] at hv
        by_cases h : s = v
        · simp [h]
        · exfalso
          have : ((s, (none : Option Nat)).1 == v) = false := by simpa using h
          simp [List.find?, this] at hv
      · simp [cfLookup, List.find?]
      · rw [cfLookup]
        have : ((s, (none : Option Nat)).1 == t) = false := by simpa using hst
        simp [List.find?, this]
    · refine ⟨1, [s], [], by simp, ?_, by simp⟩
      intro v hv
      simp only [List.mem_singleton] at hv
      subst hv
      rw [reconLen, reconstructPath]
      simp [reconstructGo]

/-- Witness for C5 on a concrete five-node graph: the returned path
[0, 1, 3] is a valid path from 0 to 3, and its minimality hypothesis is
discharged against the alternative valid path [0, 2, 3]. -/
theorem findPlatformPath_correct_witness :
    IsPath ⟨[], [(0, [1, 2]), (1, [3]), (2, [3]), (3, []), (4, [0])]⟩
        0 3 [0, 1, 3] ∧
      ([0, 1, 3] : List Nat).length ≤ ([0, 2, 3] : List Nat).length := by
  have hs1 : bfsProcessNeighbors 0 3 0
      (edgesGet ⟨[], [(0, [1, 2]), (1, [3]), (2, [3]), (3, []), (4, [0])]⟩ 0)
      [(0, none)] =
      BfsStep.cont [1, 2] [(0, none), (1, some 0), (2, some 0)] := by
    decide
  have hs2 : bfsProcessNeighbors 0 3 1
      (edgesGet ⟨[], [(0, [1, 2]), (1, [3]), (2, [3]), (3, []), (4, [0])]⟩ 1)
      [(0, none), (1, some 0), (2, some 0)] =
      BfsStep.found (some [0, 1, 3]) := by
    decide
  have hfp : findPlatformPath
      ⟨[], [(0, [1, 2]), (1, [3]), (2, [3]), (3, []), (4, [0])]⟩
      (some 0) (some 3) = some [0, 1, 3] := by
    rw [findPlatformPath, if_neg (by decide), bfsLoop_cons]
    simp only [hs1]
    rw [show ([] : List Nat) ++ [1, 2] = [1, 2] from rfl, bfsLoop_cons]
    simp only [hs2]
  have h := (findPlatformPath_correct
    ⟨[], [(0, [1, 2]), (1, [3]), (2, [3]), (3, []), (4, [0])]⟩ 0 3).1
    [0, 1, 3] hfp
  refine ⟨h.1, h.2 [0, 2, 3] ⟨rfl, rfl, ?_⟩⟩
  rw [List.chain'_cons, List.chain'_cons]
  exact ⟨by decide, by decide, List.chain'_singleton _⟩

/-! ## Game data: intents, moves, profiles
(src/game/entities/Fighter.js, src/game/combat/moves.js,
src/game/ai/aiProfiles.js) -/

/-- The intent output contract (createEmptyIntent in Fighter.js). -/
structure Intent where
  moveX : ℚ
  jumpPressed : Bool
  fastFall : Bool
  dashPressed : Bool
  dodgePressed : Bool
  guardHeld : Bool
  attackPressed : Option String
deriving DecidableEq, Repr

def createEmptyIntent : Intent :=
  { moveX := 0, jumpPressed := false, fastFall := false,
    dashPressed := false, dodgePressed := false, guardHeld := false,
    attackPressed := none }

/-- Move frame data (moves.js). -/
structure Move where
  kind : String
  startupMs : ℚ
  activeMs : ℚ
  recoveryMs : ℚ
  damage : ℚ
  hitstunMs : ℚ
  hitstopMs : ℚ
  knockbackX : ℚ
  knockbackY : ℚ
  hitboxWidth : ℚ
  hitboxHeight : ℚ
  hitboxOffsetX : ℚ
  hitboxOffsetY : ℚ
  allowedGround : Bool
  allowedAir : Bool
  landingLagMs : ℚ
  tags : List String
deriving DecidableEq, Repr

def lightMove : Move :=
  { kind := "light", startupMs := 90, activeMs := 90, recoveryMs := 170,
    damage := 10, hitstunMs := 220, hitstopMs := 50,
    knockbackX := 420, knockbackY := 320,
    hitboxWidth := 62, hitboxHeight := 44,
    hitboxOffsetX := 36, hitboxOffsetY := -6,
    allowedGround := true, allowedAir := true, landingLagMs := 90,
    tags := ["fast", "horizontal", "neutral"] }

def heavyMove : Move :=
  { kind := "heavy", startupMs := 200, activeMs := 90, recoveryMs := 260,
    damage := 18, hitstunMs := 300, hitstopMs := 70,
    knockbackX := 560, knockbackY := 380,
    hitboxWidth := 86, hitboxHeight := 56,
    hitboxOffsetX := 44, hitboxOffsetY := -10,
    allowedGround := true, allowedAir := false, landingLagMs := 0,
    tags := ["slow", "horizontal", "power"] }

def jabMove : Move :=
  { kind := "jab", startupMs := 60, activeMs := 70, recoveryMs := 140,
    damage := 7, hitstunMs := 190, hitstopMs := 40,
    knockbackX := 320, knockbackY := 240,
    hitboxWidth := 54, hitboxHeight := 40,
    hitboxOffsetX := 28, hitboxOffsetY := -8,
    allowedGround := true, allowedAir := false, landingLagMs := 0,
    tags := ["fast", "close", "poke"] }

def sweepMove : Move :=
  { kind := "sweep", startupMs := 140, activeMs := 80, recoveryMs := 220,
    damage := 11, hitstunMs := 240, hitstopMs := 55,
    knockbackX := 460, knockbackY := 220,
    hitboxWidth := 86, hitboxHeight := 26,
    hitboxOffsetX := 44, hitboxOffsetY := 22,
    allowedGround := true, allowedAir := false, landingLagMs := 0,
    tags := ["low", "midrange", "whiffPunish"] }

def uppercutMove : Move :=
  { kind := "uppercut", startupMs := 150, activeMs := 80,
    recoveryMs := 240,
    damage := 14, hitstunMs := 280, hitstopMs := 60,
    knockbackX := 360, knockbackY := 520,
    hitboxWidth := 58, hitboxHeight := 98,
    hitboxOffsetX := 22, hitboxOffsetY := -44,
    allowedGround := true, allowedAir := false, landingLagMs := 0,
    tags := ["antiAir", "vertical", "commit"] }

def airKickMove : Move :=
  { kind := "airKick", startupMs := 90, activeMs := 90,
    recoveryMs := 180,
    damage := 9, hitstunMs := 210, hitstopMs := 45,
    knockbackX := 380, knockbackY := 260,
    hitboxWidth := 66, hitboxHeight := 56,
    hitboxOffsetX := 24, hitboxOffsetY := 28,
    allowedGround := false, allowedAir := true, landingLagMs := 140,
    tags := ["air", "down", "approach"] }

/-- MOVES[kind] (moves.js object lookup; undefined for unknown kinds). -/
def MOVES (kind : String) : Option Move :=
  if kind = "light" then some lightMove
  else if kind = "heavy" then some heavyMove
  else if kind = "jab" then some jabMove
  else if kind = "sweep" then some sweepMove
  else if kind = "uppercut" then some uppercutMove
  else if kind = "airKick" then some airKickMove
  else none

/-- AI playstyle weights (aiProfiles.js; the zh-TW labels are UI-only
and omitted). -/
structure AiProfile where
  id : String
  aggression : ℚ
  defense : ℚ
  spacingMin : ℚ
  spacingMax : ℚ
  threatHorizonMs : ℚ
  dashChance : ℚ
deriving DecidableEq, Repr

def balancedProfile : AiProfile :=
  { id := "balanced", aggression := 55/100, defense := 55/100,
    spacingMin := 75, spacingMax := 150, threatHorizonMs := 220,
    dashChance := 35/100 }

def aggressiveProfile : AiProfile :=
  { id := "aggressive", aggression := 85/100, defense := 35/100,
    spacingMin := 55, spacingMax := 120, threatHorizonMs := 200,
    dashChance := 60/100 }

def defensiveProfile : AiProfile :=
  { id := "defensive", aggression := 35/100, defense := 85/100,
    spacingMin := 95, spacingMax := 185, threatHorizonMs := 250,
    dashChance := 18/100 }

def punisherProfile : AiProfile :=
  { id := "punisher", aggression := 50/100, defense := 70/100,
    spacingMin := 90, spacingMax := 170, threatHorizonMs := 240,
    dashChance := 25/100 }

def normalizeAiProfileId (v : Option String) : String :=
  let s := v.getD ""
  if s = "balanced" ∨ s = "aggressive" ∨ s = "defensive" ∨
      s = "punisher" then s
  else "balanced"

def getAiProfile (profileId : Option String) : AiProfile :=
  let v := normalizeAiProfileId profileId
  if v = "aggressive" then aggressiveProfile
  else if v = "defensive" then defensiveProfile
  else if v = "punisher" then punisherProfile
  else balancedProfile

/-! ## Rectangles -/

/-- Phaser-style rectangle (x, y = top-left corner). -/
structure Rect where
  x : ℚ
  y : ℚ
  width : ℚ
  height : ℚ
deriving DecidableEq, Repr

/-- Phaser.Geom.Rectangle.Overlaps: strict AABB overlap. -/
def rectanglesOverlap (a b : Rect) : Bool :=
  decide (a.x < b.x + b.width) && decide (a.x + a.width > b.x) &&
    decide (a.y < b.y + b.height) && decide (a.y + a.height > b.y)

/-- World-coordinate box used by BotAgent's threat model. -/
structure Box where
  left : ℚ
  right : ℚ
  top : ℚ
  bottom : ℚ
deriving DecidableEq, Repr

/-- rectsOverlap in BotAgent.js: non-strict AABB overlap (touching
boxes count). -/
def rectsOverlap (a b : Box) : Bool :=
  !(decide (a.right < b.left) || decide (a.left > b.right) ||
    decide (a.bottom < b.top) || decide (a.top > b.bottom))

/-- getHurtboxRectAt (platformBrawlBt): hurtbox from display size. -/
def getHurtboxRectAt (x y width height : ℚ) : Rect :=
  ⟨x - width / 2, y - height / 2, width, height⟩

/-- getMoveHitboxRect: the would-be hitbox of a move at a position. -/
def getMoveHitboxRect (move : Move) (x y facing : ℚ) : Rect :=
  let centerX :=
    x + (if 0 ≤ facing then 1 else -1) *
      (move.hitboxOffsetX + move.hitboxWidth / 2)
  let centerY := y + move.hitboxOffsetY
  ⟨centerX - move.hitboxWidth / 2, centerY - move.hitboxHeight / 2,
    move.hitboxWidth, move.hitboxHeight⟩

/-- clampNumber (platformBrawlBt): NaN collapses to min in JS; rationals
are always finite, so this is the plain clamp. -/
def clampNumber (value min max : ℚ) : ℚ :=
  jsClamp value min max

/-! ## Blackboard records -/

/-- Attack state snapshot of a fighter (phase machine lives in
Fighter.js; the AI reads kind/phase/hasHit/phaseEndsAtMs). -/
structure AttackState where
  kind : String
  phase : String
  hasHit : Bool
  phaseEndsAtMs : ℚ
deriving DecidableEq, Repr

/-- Threat assessment produced by computeThreat. -/
structure Threat where
  threatening : Bool
  willHit : Bool
  timeToHitMs : Option ℚ
  moveKind : Option String
  phase : Option String
  severity : ℚ
deriving DecidableEq, Repr

/-- Active "walk to edge then drop" plan (buildOrReuseDropPlan). -/
structure DropPlan where
  kind : String
  fromPlatformId : Nat
  toPlatformId : Nat
  edgeX : ℚ
  side : String
  fallbackDir : ℚ
  createdAtMs : ℚ
  expiresAtMs : ℚ
  nextPlatformCenterX : ℚ
  currentPlatformCenterX : ℚ
deriving DecidableEq, Repr

/-- blackboard.ai.nav (getNavMemory). -/
structure NavMemory where
  fromId : Option Nat
  toId : Option Nat
  path : Option (List Nat)
  nextPlatformId : Option Nat
  lockedUntilMs : ℚ
  replanAtMs : ℚ
  lastSelfPlatformId : Option Nat
  lastTargetPlatformId : Option Nat
  dropPlan : Option DropPlan
deriving DecidableEq, Repr

def defaultNavMemory : NavMemory :=
  { fromId := none, toId := none, path := none, nextPlatformId := none,
    lockedUntilMs := 0, replanAtMs := 0, lastSelfPlatformId := none,
    lastTargetPlatformId := none, dropPlan := none }

/-- Hit-confirm event data kept on combat memory (populated by
BattleScene; the AI core reads only outcome). -/
structure AttackEvent where
  outcome : String
deriving DecidableEq, Repr

/-- blackboard.ai.combat (getCombatMemory). -/
structure CombatMemory where
  lockedUntilMs : ℚ
  mode : Option String
  desiredMoveKind : Option String
  lastAttackEvent : Option AttackEvent
  lastProcessedAttackEventAtMs : ℚ
  lastLandedHitAtMs : ℚ
  comboWindowUntilMs : ℚ
  comboCount : ℚ
  blockPressureUntilMs : ℚ
deriving DecidableEq, Repr

def defaultCombatMemory : CombatMemory :=
  { lockedUntilMs := 0, mode := none, desiredMoveKind := none,
    lastAttackEvent := none, lastProcessedAttackEventAtMs := 0,
    lastLandedHitAtMs := 0, comboWindowUntilMs := 0, comboCount := 0,
    blockPressureUntilMs := 0 }

/-- blackboard.ai.strafe burst state. -/
structure StrafeState where
  untilMs : ℚ
  dir : ℚ
deriving DecidableEq, Repr

structure BbSelf where
  hp : ℚ
  maxHp : ℚ
  x : ℚ
  y : ℚ
  vx : ℚ
  vy : ℚ
  onGround : Bool
  inHitstun : Bool
  inHitstop : Bool
  attack : Option AttackState
  predictedX : ℚ
  predictedY : ℚ
deriving DecidableEq, Repr

structure BbTarget where
  x : ℚ
  y : ℚ
  vx : ℚ
  vy : ℚ
  dx : ℚ
  dy : ℚ
  absDx : ℚ
  absDy : ℚ
  inHitstun : Bool
  attack : Option AttackState
  onGround : Bool
  predictedX : ℚ
  predictedY : ℚ
deriving DecidableEq, Repr

structure BbStage where
  width : ℚ
  height : ℚ
  centerX : ℚ
deriving DecidableEq, Repr

structure BbAi where
  profileId : String
  profile : AiProfile
  threat : Threat
  nowMs : ℚ
  nav : Option NavMemory
  combat : Option CombatMemory
  strafe : Option StrafeState
  lastStatus : Option Status
  lastTrace : List (String × Status)
  lastReasons : List String
deriving DecidableEq, Repr

/-- The per-agent blackboard.  The observation fields are fully
overwritten by every updateBlackboard call; nav/combat/strafe memory
persists across ticks. -/
structure Blackboard where
  self : BbSelf
  target : BbTarget
  stage : BbStage
  ai : BbAi
deriving DecidableEq, Repr

/-- The movable-entity interface consumed by the AI core (spec §6):
kinematics, display size, facing, attack state, and the Fighter query
methods canAttack/isInHitstun/isInHitstop, which live outside the AI
core and are modelled as oracle functions. vx/vy stand for
body.velocity (0 substituted in JS when the body is absent). -/
structure Fighter where
  x : ℚ
  y : ℚ
  vx : ℚ
  vy : ℚ
  blockedDown : Bool
  touchingDown : Bool
  hp : ℚ
  maxHp : ℚ
  displayWidth : ℚ
  displayHeight : ℚ
  facing : ℚ
  attackState : Option AttackState
  canAttack : String → ℚ → Bool → Bool
  isInHitstun : ℚ → Bool
  isInHitstop : ℚ → Bool

/-- Stage descriptor consumed by the AI core. -/
structure Stage where
  width : ℚ
  height : ℚ
  centerX : ℚ
  offstageMargin : Option ℚ
  platformGraph : Option PlatformGraph

/-- The game tick context (BotAgent.tick's ctx object).  All leaf
mutations of intent/blackboard/reasons are modelled by returning an
updated context. -/
structure GameCtx where
  nowMs : ℚ
  self : Fighter
  target : Fighter
  stage : Stage
  blackboard : Blackboard
  intent : Intent
  trace : List (String × Status)
  reasons : List String

def setIntent (ctx : GameCtx) (i : Intent) : GameCtx :=
  { ctx with intent := i }

def pushReason (ctx : GameCtx) (r : String) : GameCtx :=
  { ctx with reasons := ctx.reasons ++ [r] }

def setNav (ctx : GameCtx) (nav : NavMemory) : GameCtx :=
  { ctx with blackboard :=
    { ctx.blackboard with ai := { ctx.blackboard.ai with nav := some nav } } }

def setCombat (ctx : GameCtx) (c : CombatMemory) : GameCtx :=
  { ctx with blackboard :=
    { ctx.blackboard with ai :=
      { ctx.blackboard.ai with combat := some c } } }

/-- getNavMemory: the memory object, materialized with defaults when
absent (every leaf stores it back, mirroring the in-place mutation). -/
def getNavMemory (ctx : GameCtx) : NavMemory :=
  ctx.blackboard.ai.nav.getD defaultNavMemory

/-- getCombatMemory (the JS backfill of newer fields is subsumed by the
total record type). -/
def getCombatMemory (ctx : GameCtx) : CombatMemory :=
  ctx.blackboard.ai.combat.getD defaultCombatMemory

/-- getPredictedTargetPosition: the blackboard prediction fields are
plain rationals here (always finite), so the JS Number.isFinite fallback
to the raw target position never fires. -/
def getPredictedTargetPosition (ctx : GameCtx) : ℚ × ℚ :=
  (ctx.blackboard.target.predictedX, ctx.blackboard.target.predictedY)

/-! ## Platform navigation leaf (moveUsingPlatformGraph,
src/game/ai/platformBrawlBt.js).  The JS function body is sequential;
it is split here at its control-flow joints into named stages so the
replan conditions can be referenced by the theorems, with each stage a
direct transliteration. -/

/-- getPlatformIdForFighter call for the mover (lines 325-331). -/
def selfPlatformIdOf (g : PlatformGraph) (ctx : GameCtx) : Option Nat :=
  getPlatformIdForFighter ctx.self.x ctx.self.y ctx.self.displayHeight
    ctx.blackboard.self.onGround g.nodes

/-- getPlatformIdForFighter call for the target (lines 333-339). -/
def targetPlatformIdOf (g : PlatformGraph) (ctx : GameCtx) : Option Nat :=
  getPlatformIdForFighter ctx.target.x ctx.target.y
    ctx.target.displayHeight ctx.blackboard.target.onGround g.nodes

/-- Last-known-platform bookkeeping while grounded (lines 342-343). -/
def navUpdateLastKnown (g : PlatformGraph) (ctx : GameCtx)
    (nav : NavMemory) : NavMemory :=
  let nav1 :=
    match selfPlatformIdOf g ctx with
    | some pid =>
        if ctx.blackboard.self.onGround then
          { nav with lastSelfPlatformId := some pid }
        else nav
    | none => nav
  match targetPlatformIdOf g ctx with
  | some pid =>
      if ctx.blackboard.target.onGround then
        { nav1 with lastTargetPlatformId := some pid }
      else nav1
  | none => nav1

/-- Stable mover platform id with last-known fallback (lines 346-347). -/
def stableSelfPlatformId (g : PlatformGraph) (ctx : GameCtx)
    (nav : NavMemory) : Option Nat :=
  match selfPlatformIdOf g ctx with
  | some pid => some pid
  | none =>
      if ctx.blackboard.self.onGround then nav.lastSelfPlatformId else none

/-- Stable target platform id with last-known fallback (lines 348-349). -/
def stableTargetPlatformId (g : PlatformGraph) (ctx : GameCtx)
    (nav : NavMemory) : Option Nat :=
  match targetPlatformIdOf g ctx with
  | some pid => some pid
  | none =>
      if ctx.blackboard.target.onGround then nav.lastTargetPlatformId
      else none

/-- The replan trigger (lines 359-370): the lock must have expired, and
the endpoints changed, or the plan is stale, or no path of at least two
nodes is cached. -/
def navShouldReplan (nav : NavMemory) (nowMs : ℚ)
    (sSelf sTarget : Option Nat) : Bool :=
  !(decide (nowMs < nav.lockedUntilMs)) &&
    (decide (nav.fromId ≠ sSelf) || decide (nav.toId ≠ sTarget) ||
      decide (nav.replanAtMs ≤ nowMs) ||
      (match nav.path with
       | none => true
       | some p => decide (p.length < 2)))

/-- The fresh drop-edge plan (buildOrReuseDropPlan's tail,
lines 1013-1058). -/
def buildNewDropPlan (ctx : GameCtx) (nowMs : ℚ)
    (currentPlatform nextPlatform : PlatformNode)
    (sSelf sTarget : Nat) : DropPlan :=
  let predicted := getPredictedTargetPosition ctx
  let desiredX := predicted.1
  let leftEdgeX := currentPlatform.left - 8
  let rightEdgeX := currentPlatform.right + 8
  let dxToDesired := desiredX - ctx.self.x
  let side : String :=
    if dxToDesired < -10 then "left"
    else if dxToDesired > 10 then "right"
    else
      let distLeft := jsAbs (ctx.self.x - leftEdgeX)
      let distRight := jsAbs (ctx.self.x - rightEdgeX)
      if distLeft < distRight then "left"
      else if distRight < distLeft then "right"
      else if ctx.self.facing < 0 then "left" else "right"
  let edgeX := if side = "left" then leftEdgeX else rightEdgeX
  { kind := "dropEdge", fromPlatformId := sSelf, toPlatformId := sTarget,
    edgeX := edgeX, side := side,
    fallbackDir := if side = "left" then -1 else 1,
    createdAtMs := nowMs, expiresAtMs := nowMs + 1200,
    nextPlatformCenterX := nextPlatform.centerX,
    currentPlatformCenterX := currentPlatform.centerX }

/-- buildOrReuseDropPlan: keep a compatible unexpired plan, otherwise
build a fresh one (the JS function always returns an object, so the
caller's truthiness check always passes). -/
def buildOrReuseDropPlan (ctx : GameCtx) (nav : NavMemory) (nowMs : ℚ)
    (currentPlatform nextPlatform : PlatformNode)
    (sSelf sTarget : Nat) : DropPlan :=
  match nav.dropPlan with
  | some existing =>
      if nowMs ≤ existing.expiresAtMs ∧
          existing.fromPlatformId = sSelf ∧
          existing.toPlatformId = sTarget then existing
      else buildNewDropPlan ctx nowMs currentPlatform nextPlatform sSelf
        sTarget
  | none =>
      buildNewDropPlan ctx nowMs currentPlatform nextPlatform sSelf
        sTarget

/-- Math.sign(dx || fallback) as used for edge walking. -/
def edgeMoveX (dxToEdge fallbackDir : ℚ) : ℚ :=
  if jsAbs dxToEdge > 6 then jsSign dxToEdge
  else if dxToEdge ≠ 0 then jsSign dxToEdge
  else jsSign fallbackDir

/-- Movement along the cached plan (lines 391-456): steer to the next
platform's center, jump when going up and aligned, and run the drop
strategy when going down. -/
def moveAlongPath (g : PlatformGraph) (ctx : GameCtx) (nav : NavMemory)
    (sSelf sTarget : Nat) : Option Status × GameCtx :=
  match nav.nextPlatformId with
  | none => (none, setNav ctx nav)
  | some nextId =>
      -- platformNodes[nextId] / platformNodes[stableSelfPlatformId]
      match g.nodes.get? nextId, g.nodes.get? sSelf with
      | some nextPlatform, some currentPlatform =>
          let dxToNext := nextPlatform.centerX - ctx.self.x
          let i1 := { ctx.intent with
            moveX := if jsAbs dxToNext > 12 then jsSign dxToNext else 0 }
          let goingUp := nextPlatform.top < currentPlatform.top - 8
          let jumped := goingUp ∧ ctx.blackboard.self.onGround ∧
            jsAbs dxToNext < 34
          let i2 := if jumped then { i1 with jumpPressed := true } else i1
          let r2 : List String := if jumped then ["JUMP_TO_PLATFORM"] else []
          let goingDown := nextPlatform.top > currentPlatform.top + 8
          if goingDown then
            if ctx.blackboard.self.onGround ∧ currentPlatform.oneWay then
              (some .running, setNav
                { ctx with
                  intent := { i2 with fastFall := true, jumpPressed := true },
                  reasons := ctx.reasons ++ r2 ++ ["DROP_THROUGH_PLATFORM"] }
                nav)
            else if ¬ctx.blackboard.self.onGround then
              (some .running, setNav
                { ctx with
                  intent := { i2 with fastFall := true },
                  reasons := ctx.reasons ++ r2 ++ ["FAST_FALL_TO_LAND"] }
                nav)
            else
              let dropPlan := buildOrReuseDropPlan ctx nav ctx.nowMs
                currentPlatform nextPlatform sSelf sTarget
              let nav2 := { nav with
                dropPlan := some dropPlan,
                lockedUntilMs :=
                  Max.max nav.lockedUntilMs (ctx.nowMs + 320) }
              let dxToEdge := dropPlan.edgeX - ctx.self.x
              (some .running, setNav
                { ctx with
                  intent := { i2 with
                    moveX := edgeMoveX dxToEdge dropPlan.fallbackDir },
                  reasons := ctx.reasons ++ r2 ++ ["WALK_TO_DROP_EDGE"] }
                nav2)
          else
            (some .running, setNav
              { ctx with
                intent := i2,
                reasons := ctx.reasons ++ r2 ++ ["NAVIGATE_PLATFORM"] }
              nav)
      | _, _ => (none, setNav ctx nav)

/-- The replan / reuse decision of moveUsingPlatformGraph
(lines 346-389), applied to the nav memory with refreshed last-known
platform ids. -/
def moveUsingPlatformGraphCore (g : PlatformGraph) (ctx : GameCtx)
    (nav1 : NavMemory) : Option Status × GameCtx :=
  match stableSelfPlatformId g ctx nav1, stableTargetPlatformId g ctx nav1
      with
  | some a, some b =>
      if a = b then (none, setNav ctx nav1)
      else
        if navShouldReplan nav1 ctx.nowMs (some a) (some b) then
          match findPlatformPath g (some a) (some b) with
          | none => (none, setNav ctx nav1)
          | some path =>
              if path.length < 2 then (none, setNav ctx nav1)
              else
                moveAlongPath g ctx { nav1 with
                  path := some path,
                  fromId := some a, toId := some b,
                  nextPlatformId := path.get? 1,
                  replanAtMs := ctx.nowMs + 250,
                  lockedUntilMs := ctx.nowMs + 280, dropPlan := none } a b
        else moveAlongPath g ctx nav1 a b
  | _, _ => (none, setNav ctx nav1)

/-- The stage of moveUsingPlatformGraph after the drop-plan
continuation check (lines 325-456). -/
def moveUsingPlatformGraphMain (g : PlatformGraph) (ctx : GameCtx)
    (nav0 : NavMemory) : Option Status × GameCtx :=
  moveUsingPlatformGraphCore g ctx (navUpdateLastKnown g ctx nav0)

/-- moveUsingPlatformGraph (lines 289-457).  none models the JS null
result (fall back to simple chase); the nav memory materialized by
getNavMemory is stored back on every exit, mirroring the in-place
mutation. -/
def moveUsingPlatformGraph (ctx : GameCtx) : Option Status × GameCtx :=
  match ctx.stage.platformGraph with
  | none => (none, ctx)  -- moveToTargetX guards on a non-empty graph
  | some g =>
      match (getNavMemory ctx).dropPlan with
      | some dp =>
          if ctx.nowMs ≤ dp.expiresAtMs then
            if ctx.blackboard.self.onGround then
              (some .running, setNav
                (pushReason (setIntent ctx { ctx.intent with
                  moveX := edgeMoveX (dp.edgeX - ctx.self.x)
                    dp.fallbackDir })
                  "NAV_DROP_WALK_TO_EDGE") (getNavMemory ctx))
            else
              (some .running, setNav
                (pushReason (setIntent ctx
                  { ctx.intent with fastFall := true })
                  "NAV_DROP_FAST_FALL") (getNavMemory ctx))
          else moveUsingPlatformGraphMain g ctx (getNavMemory ctx)
      | none => moveUsingPlatformGraphMain g ctx (getNavMemory ctx)

/-- The cached-plan fields of the navigation memory (the four fields a
replan overwrites). -/
def navFour (n : NavMemory) :
    Option (List Nat) × Option Nat × Option Nat × Option Nat :=
  (n.path, n.fromId, n.toId, n.nextPlatformId)

theorem getNavMemory_setNav (c : GameCtx) (n : NavMemory) :
    getNavMemory (setNav c n) = n := rfl

theorem navUpdateLastKnown_fields (g : PlatformGraph) (ctx : GameCtx)
    (nav : NavMemory) :
    navFour (navUpdateLastKnown g ctx nav) = navFour nav ∧
      (navUpdateLastKnown g ctx nav).lockedUntilMs = nav.lockedUntilMs ∧
      (navUpdateLastKnown g ctx nav).replanAtMs = nav.replanAtMs ∧
      (navUpdateLastKnown g ctx nav).dropPlan = nav.dropPlan := by
  unfold navUpdateLastKnown
  cases h1 : selfPlatformIdOf g ctx <;>
    cases h2 : targetPlatformIdOf g ctx <;>
    by_cases hg1 : ctx.blackboard.self.onGround <;>
    by_cases hg2 : ctx.blackboard.target.onGround <;>
    simp [hg1, hg2, navFour]

theorem moveAlongPath_navFour (g : PlatformGraph) (ctx : GameCtx)
    (nav : NavMemory) (a b : Nat) :
    navFour (getNavMemory (moveAlongPath g ctx nav a b).2) = navFour nav := by
  unfold moveAlongPath
  dsimp only
  repeat' split
  all_goals rfl

/-- C3: a replan — overwriting nav.path, nav.fromId, nav.toId and
nav.nextPlatformId — happens at a tick only when the lock has expired
(nav.lockedUntilMs ≤ nowMs) AND (the stable self/target platform ids
differ from the cached endpoints, or the plan is stale
(replanAtMs ≤ nowMs), or no path of at least 2 nodes is cached); and on
every tick inside the lock window (nowMs < nav.lockedUntilMs) those four
cached fields are unchanged. -/
theorem nav_replan_lock_invariant (ctx : GameCtx) :
    (navFour (getNavMemory (moveUsingPlatformGraph ctx).2) ≠
        navFour (getNavMemory ctx) →
      (getNavMemory ctx).lockedUntilMs ≤ ctx.nowMs ∧
        ∃ g, ctx.stage.platformGraph = some g ∧
          (stableSelfPlatformId g ctx
              (navUpdateLastKnown g ctx (getNavMemory ctx)) ≠
            (getNavMemory ctx).fromId ∨
          stableTargetPlatformId g ctx
              (navUpdateLastKnown g ctx (getNavMemory ctx)) ≠
            (getNavMemory ctx).toId ∨
          (getNavMemory ctx).replanAtMs ≤ ctx.nowMs ∨
          ¬ ∃ p, (getNavMemory ctx).path = some p ∧ 2 ≤ p.length)) ∧
    (ctx.nowMs < (getNavMemory ctx).lockedUntilMs →
      navFour (getNavMemory (moveUsingPlatformGraph ctx).2) =
        navFour (getNavMemory ctx)) := by
  have hmain : ∀ g : PlatformGraph,
      navFour (getNavMemory
          (moveUsingPlatformGraphMain g ctx (getNavMemory ctx)).2) ≠
        navFour (getNavMemory ctx) →
      (getNavMemory ctx).lockedUntilMs ≤ ctx.nowMs ∧
        (stableSelfPlatformId g ctx
            (navUpdateLastKnown g ctx (getNavMemory ctx)) ≠
          (getNavMemory ctx).fromId ∨
        stableTargetPlatformId g ctx
            (navUpdateLastKnown g ctx (getNavMemory ctx)) ≠
          (getNavMemory ctx).toId ∨
        (getNavMemory ctx).replanAtMs ≤ ctx.nowMs ∨
        ¬ ∃ p, (getNavMemory ctx).path = some p ∧ 2 ≤ p.length) := by
    intro g hchanged
    obtain ⟨hfour, hlock, hreplan, -⟩ :=
      navUpdateLastKnown_fields g ctx (getNavMemory ctx)
    have hcomp := hfour
    simp only [navFour, Prod.mk.injEq] at hcomp
    obtain ⟨hpath, hfrom, hto, -⟩ := hcomp
    unfold moveUsingPlatformGraphMain moveUsingPlatformGraphCore
      at hchanged
    cases hs : stableSelfPlatformId g ctx
        (navUpdateLastKnown g ctx (getNavMemory ctx)) with
    | none =>
        rw [hs] at hchanged
        cases ht : stableTargetPlatformId g ctx
            (navUpdateLastKnown g ctx (getNavMemory ctx)) <;>
          rw [ht] at hchanged <;>
          simp [getNavMemory_setNav, hfour] at hchanged
    | some a =>
        rw [hs] at hchanged
        cases ht : stableTargetPlatformId g ctx
            (navUpdateLastKnown g ctx (getNavMemory ctx)) with
        | none =>
            rw [ht] at hchanged
            simp [getNavMemory_setNav, hfour] at hchanged
        | some b =>
            rw [ht] at hchanged
            dsimp only at hchanged
            by_cases hab : a = b
            · rw [if_pos hab] at hchanged
              simp [getNavMemory_setNav, hfour] at hchanged
            · rw [if_neg hab] at hchanged
              by_cases hrep : navShouldReplan
                  (navUpdateLastKnown g ctx (getNavMemory ctx))
                  ctx.nowMs (some a) (some b) = true
              · have hconds := hrep
                unfold navShouldReplan at hconds
                simp only [Bool.and_eq_true, Bool.not_eq_true',
                  decide_eq_false_iff_not, not_lt, Bool.or_eq_true,
                  decide_eq_true_eq, ne_eq] at hconds
                refine ⟨by rw [← hlock]; exact hconds.1, ?_⟩
                rcases hconds.2 with ((h | h) | h) | h
                · exact Or.inl fun he => h (hfrom.trans he.symm)
                · exact Or.inr (Or.inl fun he => h (hto.trans he.symm))
                · exact Or.inr (Or.inr (Or.inl (hreplan ▸ h)))
                · refine Or.inr (Or.inr (Or.inr ?_))
                  rintro ⟨p, hp, hlen⟩
                  rw [hpath, hp] at h
                  simp at h
                  omega
              · rw [if_neg hrep] at hchanged
                rw [moveAlongPath_navFour, hfour] at hchanged
                exact absurd rfl hchanged
  have hlocked2 : ∀ g : PlatformGraph,
      ctx.nowMs < (getNavMemory ctx).lockedUntilMs →
      navFour (getNavMemory
          (moveUsingPlatformGraphMain g ctx (getNavMemory ctx)).2) =
        navFour (getNavMemory ctx) := by
    intro g hl
    obtain ⟨hfour, hlock, -, -⟩ :=
      navUpdateLastKnown_fields g ctx (getNavMemory ctx)
    unfold moveUsingPlatformGraphMain moveUsingPlatformGraphCore
    cases hs : stableSelfPlatformId g ctx
        (navUpdateLastKnown g ctx (getNavMemory ctx)) with
    | none =>
        cases ht : stableTargetPlatformId g ctx
            (navUpdateLastKnown g ctx (getNavMemory ctx)) <;>
          simp [getNavMemory_setNav, hfour]
    | some a =>
        cases ht : stableTargetPlatformId g ctx
            (navUpdateLastKnown g ctx (getNavMemory ctx)) with
        | none => simp [getNavMemory_setNav, hfour]
        | some b =>
            dsimp only
            by_cases hab : a = b
            · rw [if_pos hab]
              simp [getNavMemory_setNav, hfour]
            · rw [if_neg hab]
              have hrep : navShouldReplan
                  (navUpdateLastKnown g ctx (getNavMemory ctx))
                  ctx.nowMs (some a) (some b) = false := by
                unfold navShouldReplan
                have hd : decide (ctx.nowMs <
                    (navUpdateLastKnown g ctx
                      (getNavMemory ctx)).lockedUntilMs) = true := by
                  rw [hlock]
                  exact decide_eq_true hl
                simp [hd]
              rw [if_neg (by simp [hrep])]
              rw [moveAlongPath_navFour, hfour]
  constructor
  · intro hchanged
    unfold moveUsingPlatformGraph at hchanged
    cases hg : ctx.stage.platformGraph with
    | none =>
        rw [hg] at hchanged
        exact absurd rfl hchanged
    | some g =>
        rw [hg] at hchanged
        cases hdp : (getNavMemory ctx).dropPlan with
        | some dp =>
            rw [hdp] at hchanged
            dsimp only at hchanged
            by_cases hexp : ctx.nowMs ≤ dp.expiresAtMs
            · rw [if_pos hexp] at hchanged
              by_cases hong : ctx.blackboard.self.onGround = true <;>
                simp [hong, getNavMemory_setNav] at hchanged
            · rw [if_neg hexp] at hchanged
              obtain ⟨h1, h2⟩ := hmain g hchanged
              exact ⟨h1, g, rfl, h2⟩
        | none =>
            rw [hdp] at hchanged
            obtain ⟨h1, h2⟩ := hmain g hchanged
            exact ⟨h1, g, rfl, h2⟩
  · intro hl
    unfold moveUsingPlatformGraph
    cases hg : ctx.stage.platformGraph with
    | none => rfl
    | some g =>
        cases hdp : (getNavMemory ctx).dropPlan with
        | some dp =>
            dsimp only
            by_cases hexp : ctx.nowMs ≤ dp.expiresAtMs
            · rw [if_pos hexp]
              by_cases hong : ctx.blackboard.self.onGround = true <;>
                simp [hong, getNavMemory_setNav]
            · rw [if_neg hexp]
              exact hlocked2 g hl
        | none => exact hlocked2 g hl
/-! Concrete two-platform navigation scenario: the mover stands on a
low solid platform, the target on a one-way platform above and within
jump range.  The graph is the one buildPlatformGraph produces for the
rects (100, 300, 200, 20, solid) and (150, 180, 120, 20, one-way),
written out as a literal. -/

def navWitFighterSelf : Fighter :=
  { x := 100, y := 280, vx := 0, vy := 0, blockedDown := true,
    touchingDown := false, hp := 100, maxHp := 100, displayWidth := 48,
    displayHeight := 20, facing := 1, attackState := none,
    canAttack := fun _ _ _ => true, isInHitstun := fun _ => false,
    isInHitstop := fun _ => false }

def navWitFighterTarget : Fighter :=
  { navWitFighterSelf with x := 150, y := 160 }

def navWitGraph : PlatformGraph :=
  { nodes :=
      [{ id := 0, left := 0, right := 200, top := 290, bottom := 310,
         centerX := 100, width := 200, height := 20, oneWay := false },
       { id := 1, left := 90, right := 210, top := 170, bottom := 190,
         centerX := 150, width := 120, height := 20, oneWay := true }],
    edges := [(0, [1]), (1, [0])] }

def navWitBb : Blackboard :=
  { self :=
      { hp := 100, maxHp := 100, x := 100, y := 280, vx := 0, vy := 0,
        onGround := true, inHitstun := false, inHitstop := false,
        attack := none, predictedX := 100, predictedY := 280 },
    target :=
      { x := 150, y := 160, vx := 0, vy := 0, dx := 50, dy := -120,
        absDx := 50, absDy := 120, inHitstun := false, attack := none,
        onGround := true, predictedX := 150, predictedY := 160 },
    stage := { width := 1280, height := 720, centerX := 640 },
    ai :=
      { profileId := "balanced", profile := balancedProfile,
        threat := ⟨false, false, none, none, none, 0⟩, nowMs := 1000,
        nav := none, combat := none, strafe := none,
        lastStatus := none, lastTrace := [], lastReasons := [] } }

/-- Fresh navigation memory: the first tick replans. -/
def navWitCtxA : GameCtx :=
  { nowMs := 1000, self := navWitFighterSelf,
    target := navWitFighterTarget,
    stage :=
      { width := 1280, height := 720, centerX := 640,
        offstageMargin := none, platformGraph := some navWitGraph },
    blackboard := navWitBb, intent := createEmptyIntent, trace := [],
    reasons := [] }

/-- Same scene but with a cached plan locked until t=2000. -/
def navWitCtxB : GameCtx :=
  { navWitCtxA with
    blackboard :=
      { navWitBb with
        ai :=
          { navWitBb.ai with
            nav := some
              { defaultNavMemory with
                lockedUntilMs := 2000, path := some [0, 1],
                fromId := some 0, toId := some 1,
                nextPlatformId := some 1 } } } }

theorem navWit_selfId : selfPlatformIdOf navWitGraph navWitCtxA = some 0 := by
  norm_num [selfPlatformIdOf, getPlatformIdForFighter, navWitGraph,
    navWitCtxA, navWitFighterSelf, navWitBb, List.foldl, jsAbs]

theorem navWit_targetId :
    targetPlatformIdOf navWitGraph navWitCtxA = some 1 := by
  norm_num [targetPlatformIdOf, getPlatformIdForFighter, navWitGraph,
    navWitCtxA, navWitFighterTarget, navWitFighterSelf, navWitBb,
    List.foldl, jsAbs]

theorem navWit_nav1 :
    navUpdateLastKnown navWitGraph navWitCtxA (getNavMemory navWitCtxA) =
      { defaultNavMemory with
        lastSelfPlatformId := some 0,
        lastTargetPlatformId := some 1 } := by
  rw [navUpdateLastKnown, navWit_selfId, navWit_targetId]
  rfl

theorem navWit_findPath :
    findPlatformPath navWitGraph (some 0) (some 1) = some [0, 1] := by
  have hs1 : bfsProcessNeighbors 0 1 0 (edgesGet navWitGraph 0)
      [(0, none)] = BfsStep.found (some [0, 1]) := by decide
  rw [findPlatformPath, if_neg (by decide), bfsLoop_cons, hs1]

theorem navWitCtxA_run :
    navFour (getNavMemory (moveUsingPlatformGraph navWitCtxA).2) =
      (some [0, 1], some 0, some 1, some 1) := by
  have h1 : stableSelfPlatformId navWitGraph navWitCtxA
      (navUpdateLastKnown navWitGraph navWitCtxA
        (getNavMemory navWitCtxA)) = some 0 := by
    rw [stableSelfPlatformId, navWit_selfId]
  have h2 : stableTargetPlatformId navWitGraph navWitCtxA
      (navUpdateLastKnown navWitGraph navWitCtxA
        (getNavMemory navWitCtxA)) = some 1 := by
    rw [stableTargetPlatformId, navWit_targetId]
  have hrep : navShouldReplan
      (navUpdateLastKnown navWitGraph navWitCtxA
        (getNavMemory navWitCtxA))
      navWitCtxA.nowMs (some 0) (some 1) = true := by
    rw [navWit_nav1]
    decide
  unfold moveUsingPlatformGraph
  rw [show navWitCtxA.stage.platformGraph = some navWitGraph from rfl]
  dsimp only
  rw [show (getNavMemory navWitCtxA).dropPlan = none from rfl]
  dsimp only
  unfold moveUsingPlatformGraphMain moveUsingPlatformGraphCore
  rw [h1, h2]
  dsimp only
  rw [if_neg (by decide), if_pos hrep, navWit_findPath]
  dsimp only
  rw [if_neg (by decide)]
  rw [moveAlongPath_navFour]
  rfl

/-- Witness for C3: on the fresh-memory context the four cached fields
change (a replan happens) and the lock is indeed expired; on the locked
context the four cached fields are unchanged. -/
theorem nav_replan_lock_invariant_witness :
    (navFour (getNavMemory (moveUsingPlatformGraph navWitCtxA).2) ≠
        navFour (getNavMemory navWitCtxA) ∧
      (getNavMemory navWitCtxA).lockedUntilMs ≤ navWitCtxA.nowMs) ∧
    (navWitCtxB.nowMs < (getNavMemory navWitCtxB).lockedUntilMs ∧
      navFour (getNavMemory (moveUsingPlatformGraph navWitCtxB).2) =
        navFour (getNavMemory navWitCtxB)) := by
  have hch : navFour (getNavMemory
      (moveUsingPlatformGraph navWitCtxA).2) ≠
      navFour (getNavMemory navWitCtxA) := by
    rw [navWitCtxA_run]
    decide
  exact ⟨⟨hch, ((nav_replan_lock_invariant navWitCtxA).1 hch).1⟩,
    by decide, (nav_replan_lock_invariant navWitCtxB).2 (by decide)⟩

/-! ## Threat model (computeThreat, src/game/ai/BotAgent.js
lines 195-279) and the evade leaf (platformBrawlBt lines 580-633). -/

/-- computeThreat: forward-looking check whether the target's current
attack could hit the mover within the horizon. -/
def computeThreat (nowMs : ℚ) (self target : Fighter)
    (horizonMs : ℚ) : Threat :=
  match target.attackState with
  | none => ⟨false, false, none, none, none, 0⟩
  | some attack =>
      if ¬(attack.phase = "startup" ∨ attack.phase = "active") ∨
          attack.kind = "" then
        ⟨false, false, none, none, none, 0⟩
      else if attack.hasHit then
        ⟨false, false, none, some attack.kind, some attack.phase, 0⟩
      else
        match MOVES attack.kind with
        | none =>
            ⟨false, false, none, some attack.kind, some attack.phase, 0⟩
        | some move =>
            let safeHorizonMs := jsClamp horizonMs 60 600
            let timeToActiveMs :=
              if attack.phase = "startup" then
                Max.max 0 (attack.phaseEndsAtMs - nowMs)
              else 0
            if timeToActiveMs > safeHorizonMs then
              ⟨true, false, none, some attack.kind, some attack.phase, 0⟩
            else
              let t := timeToActiveMs / 1000
              let predictedSelfX := self.x + self.vx * t
              let predictedSelfY := self.y + self.vy * t
              let predictedTargetX := target.x + target.vx * t
              let predictedTargetY := target.y + target.vy * t
              let hurtbox : Box :=
                ⟨predictedSelfX - self.displayWidth / 2,
                 predictedSelfX + self.displayWidth / 2,
                 predictedSelfY - self.displayHeight / 2,
                 predictedSelfY + self.displayHeight / 2⟩
              let facing : ℚ := if 0 ≤ target.facing then 1 else -1
              let hitLeft := predictedTargetX +
                facing * (move.hitboxOffsetX + move.hitboxWidth / 2) -
                move.hitboxWidth / 2
              let hitTop := predictedTargetY + move.hitboxOffsetY -
                move.hitboxHeight / 2
              let hitbox : Box :=
                ⟨hitLeft, hitLeft + move.hitboxWidth, hitTop,
                 hitTop + move.hitboxHeight⟩
              let willHit := rectsOverlap hurtbox hitbox
              ⟨true, willHit,
               if willHit then some (jsRound timeToActiveMs) else none,
               some attack.kind, some attack.phase,
               if willHit then
                 jsClamp (1 - timeToActiveMs / safeHorizonMs) 0 1
               else 0⟩

/-- evade (lines 580-633): consulted threat gate, defensive commit to
combat memory, then jump-out / block / dodge choice. -/
def evade (ctx : GameCtx) : Status × GameCtx :=
  let threat := ctx.blackboard.ai.threat
  if threat.willHit = false then (.failure, ctx)
  else
    let profile := ctx.blackboard.ai.profile
    let onGround := ctx.blackboard.self.onGround
    let combat2 := { getCombatMemory ctx with
      lockedUntilMs :=
        Max.max (getCombatMemory ctx).lockedUntilMs (ctx.nowMs + 260),
      mode := some "defend" }
    let ctx1 := setCombat ctx combat2
    let timeToHitMs := threat.timeToHitMs.getD 0
    let defenseBias := clampNumber profile.defense 0 1
    let aggression := clampNumber profile.aggression 0 1
    let awayDir :=
      if jsSign (ctx.self.x - ctx.target.x) = 0 then -1
      else jsSign (ctx.self.x - ctx.target.x)
    if onGround ∧ timeToHitMs ≥ 140 ∧ aggression ≥ 75/100 then
      (.success, pushReason (setIntent ctx1 { ctx1.intent with
        moveX := awayDir, jumpPressed := true, fastFall := false })
        "DEFEND_JUMP")
    else if onGround ∧ timeToHitMs ≥ 80 ∧ defenseBias ≥ 55/100 then
      (.success, pushReason (setIntent ctx1 { ctx1.intent with
        guardHeld := true, moveX := 0, fastFall := false })
        "DEFEND_BLOCK")
    else
      (.success, pushReason (setIntent ctx1 { ctx1.intent with
        dodgePressed := true, moveX := awayDir, fastFall := false })
        "DEFEND_DODGE")

/-! ## Utility attack selection (utilityAttack / approachAndAttack /
scoreMove, platformBrawlBt lines 646-908).  The JS function body is
split at its control-flow joints into named stages, each a direct
transliteration. -/

/-- scoreMove (lines 866-908). -/
def scoreMove (move : Move) (inRange : Bool) (absDx dy : ℚ)
    (onGround targetOnGround : Bool) (profile : AiProfile)
    (mode : String) : ℚ :=
  let aggression := clampNumber profile.aggression 0 1
  let defense := clampNumber profile.defense 0 1
  let reward := move.damage * 2 +
    (move.knockbackX + move.knockbackY * (6/10)) / 80
  let risk := (move.startupMs * (75/100) + move.recoveryMs) / 60
  let rewardWeight := 9/10 + aggression * (8/10)
  let riskWeight := 9/10 + defense * (9/10)
  let s0 := reward * rewardWeight - risk * riskWeight
  let s1 := if inRange then s0 + 28
    else s0 - clampNumber absDx 0 260 * (9/100)
  let s2 := if mode = "punish" then s1 + reward * (35/100) else s1
  let s3 := if mode = "combo" then s2 - move.startupMs * (3/100) else s2
  let s4 := if mode = "pressure" then s3 - move.recoveryMs * (2/100)
    else s3
  let s5 := if move.tags.contains "antiAir" ∧ dy < -45 then s4 + 18
    else s4
  let s6 := if move.tags.contains "low" ∧ targetOnGround ∧
      jsAbs dy < 60 then s5 + 10 else s5
  if move.tags.contains "air" ∧ onGround = false then s6 + 10 else s6

/-- approachAndAttack (lines 814-864). -/
def approachAndAttack (ctx : GameCtx) (kind : String) (nowMs : ℚ)
    (onGround : Bool) (predicted : ℚ × ℚ) (targetRect : Rect)
    (profile : AiProfile) (mode : String) : Status × GameCtx :=
  match MOVES kind with
  | none => (.failure, ctx)
  | some move =>
      let dx := predicted.1 - ctx.self.x
      let dy := predicted.2 - ctx.self.y
      let absDx := jsAbs dx
      if ctx.self.canAttack kind nowMs onGround ∧
          rectanglesOverlap
            (getMoveHitboxRect move ctx.self.x ctx.self.y
              (if ctx.self.x ≤ predicted.1 then 1 else -1))
            targetRect = true then
        (.success, pushReason (setIntent ctx
          { ctx.intent with attackPressed := some kind })
          ("ATTACK_SELECT:" ++ kind))
      else
        let dir := if jsSign dx = 0 then 1 else jsSign dx
        let i1 := { ctx.intent with
          moveX := if absDx > 10 then dir else 0 }
        let i2 := if onGround ∧ dy < -80 then
            { i1 with jumpPressed := true }
          else i1
        let dashChance := clampNumber profile.dashChance 0 1
        let dashDistance : ℚ :=
          if mode = "combo" then 140
          else if mode = "pressure" then 180 else 220
        let dashThreshold : ℚ :=
          if mode = "combo" then 18/100
          else if mode = "pressure" then 24/100 else 28/100
        let dashes := onGround ∧ absDx > dashDistance ∧
          dashChance ≥ dashThreshold
        let i3 := if dashes then { i2 with dashPressed := true } else i2
        let r3 : List String :=
          if dashes then
            [if mode = "punish" then "DASH_PUNISH"
             else if mode = "combo" then "DASH_COMBO" else "DASH_IN"]
          else []
        (.running,
          { ctx with
            intent := i3,
            reasons := ctx.reasons ++ r3 ++
              [if mode = "punish" then "PUNISH_APPROACH"
               else "APPROACH_FOR_ATTACK"] })

/-- Effective mode (lines 692-695): neutral is upgraded by the
hit-confirm windows. -/
def utilityEffectiveMode (requestedMode : String) (nowMs : ℚ)
    (combat : CombatMemory) : String :=
  let lastOutcome :=
    match combat.lastAttackEvent with
    | some e => e.outcome
    | none => ""
  if requestedMode = "neutral" ∧
      nowMs < combat.comboWindowUntilMs ∧ lastOutcome = "hit" then
    "combo"
  else if requestedMode = "neutral" ∧
      nowMs < combat.blockPressureUntilMs ∧ lastOutcome = "blocked" then
    "pressure"
  else requestedMode

/-- The reuse condition (lines 697-700): lock not expired, a planned
move present, and the CACHED mode matching the EFFECTIVE mode. -/
def utilityIsLocked (nowMs : ℚ) (combat : CombatMemory)
    (mode : String) : Bool :=
  decide (nowMs < combat.lockedUntilMs) &&
    (match combat.desiredMoveKind with
     | some k => !(k == "")
     | none => false) &&
    (combat.mode.getD "" == mode)

/-- Candidate list (lines 715-719). -/
def utilityCandidates (onGround : Bool) (mode : String) : List String :=
  if onGround then
    if mode = "pressure" then ["jab", "light", "sweep"]
    else ["jab", "light", "sweep", "heavy", "uppercut"]
  else ["airKick", "light"]

/-- Combo follow-up preferences (lines 722-731). -/
def utilityComboPreferences (mode : String) (onGround : Bool)
    (dy comboCount : ℚ) : List String :=
  if mode = "combo" ∧ onGround then
    if dy < -55 then ["uppercut", "light", "jab"]
    else if comboCount ≤ 1 then ["jab", "light"]
    else if comboCount = 2 then ["sweep", "heavy", "light"]
    else ["heavy", "uppercut", "sweep"]
  else []

/-- Target hurtbox at the predicted position (lines 703-708). -/
def utilityTargetRect (ctx : GameCtx) : Rect :=
  getHurtboxRectAt (getPredictedTargetPosition ctx).1
    (getPredictedTargetPosition ctx).2 ctx.target.displayWidth
    ctx.target.displayHeight

/-- The best-candidate scan (lines 746-781): fold the candidate kinds,
keeping the strictly highest score (ties keep the earlier kind). -/
def utilityBest (ctx : GameCtx) (candidates : List String) (nowMs : ℚ)
    (onGround targetOnGround : Bool) (predicted : ℚ × ℚ)
    (targetRect : Rect) (profile : AiProfile) (mode : String)
    (comboPreferences : List String) (absDx dy : ℚ) :
    Option (String × ℚ × Bool) :=
  candidates.foldl
    (fun best kind =>
      match MOVES kind with
      | none => best
      | some move =>
          if onGround ∧ move.allowedGround = false then best
          else if onGround = false ∧ move.allowedAir = false then best
          else if ctx.self.canAttack kind nowMs onGround = false then
            best
          else
            let facing : ℚ :=
              if ctx.self.x ≤ predicted.1 then 1 else -1
            let inRange := rectanglesOverlap
              (getMoveHitboxRect move ctx.self.x ctx.self.y facing)
              targetRect
            let score0 := scoreMove move inRange absDx dy onGround
              targetOnGround profile mode
            let score :=
              if mode = "combo" ∧ comboPreferences ≠ [] then
                match comboPreferences.indexOf? kind with
                | some idx =>
                    score0 +
                      ((comboPreferences.length - idx : ℕ) : ℚ) * 6
                | none => score0
              else score0
            match best with
            | none => some (kind, score, inRange)
            | some b =>
                if b.2.1 < score then some (kind, score, inRange)
                else best)
    none

/-- The effective mode at a tick, from the requested params.mode. -/
def utilityMode (ctx : GameCtx) (modeParam : Option String) : String :=
  utilityEffectiveMode (modeParam.getD "neutral") ctx.nowMs
    (getCombatMemory ctx)

/-- The best candidate at a tick, with all observation arguments drawn
from the context (lines 746-781). -/
def utilityBestOf (ctx : GameCtx) (modeParam : Option String) :
    Option (String × ℚ × Bool) :=
  utilityBest ctx
    (utilityCandidates ctx.blackboard.self.onGround
      (utilityMode ctx modeParam))
    ctx.nowMs ctx.blackboard.self.onGround ctx.blackboard.target.onGround
    (getPredictedTargetPosition ctx) (utilityTargetRect ctx)
    ctx.blackboard.ai.profile (utilityMode ctx modeParam)
    (utilityComboPreferences (utilityMode ctx modeParam)
      ctx.blackboard.self.onGround
      ((getPredictedTargetPosition ctx).2 - ctx.self.y)
      (getCombatMemory ctx).comboCount)
    (jsAbs ((getPredictedTargetPosition ctx).1 - ctx.self.x))
    ((getPredictedTargetPosition ctx).2 - ctx.self.y)

/-- The early-out guards (lines 661-678): hitstun/hitstop, and the
"large vertical gap with a platform graph" bail-out. -/
def utilityGuardFails (ctx : GameCtx) : Bool :=
  ctx.blackboard.self.inHitstun || ctx.blackboard.self.inHitstop ||
    ((match ctx.stage.platformGraph with
      | some g => !g.nodes.isEmpty
      | none => false) &&
      decide
        (jsAbs ((getPredictedTargetPosition ctx).2 - ctx.self.y) > 170))

/-- utilityAttack (lines 646-812). -/
def utilityAttack (ctx : GameCtx) (modeParam : Option String) :
    Status × GameCtx :=
  if utilityGuardFails ctx then (.failure, ctx)
  else
    let mode := utilityMode ctx modeParam
    if utilityIsLocked ctx.nowMs (getCombatMemory ctx) mode then
      approachAndAttack ctx
        ((getCombatMemory ctx).desiredMoveKind.getD "") ctx.nowMs
        ctx.blackboard.self.onGround (getPredictedTargetPosition ctx)
        (utilityTargetRect ctx) ctx.blackboard.ai.profile mode
    else
      match utilityBestOf ctx modeParam with
      | none => (.failure, ctx)
      | some best =>
          let ctx2 := setCombat ctx { getCombatMemory ctx with
            desiredMoveKind := some best.1,
            mode := some mode,
            lockedUntilMs := ctx.nowMs +
              (if mode = "combo" then 240 else 320) }
          if best.2.2 then
            let ctx3 := pushReason (setIntent ctx2
              { ctx2.intent with attackPressed := some best.1 })
              ("ATTACK_SELECT:" ++ best.1)
            (.success,
              if mode = "combo" then pushReason ctx3 "HIT_CONFIRM_COMBO"
              else if mode = "pressure" then
                pushReason ctx3 "HIT_CONFIRM_PRESSURE"
              else ctx3)
          else
            approachAndAttack ctx2 best.1 ctx.nowMs
              ctx.blackboard.self.onGround
              (getPredictedTargetPosition ctx) (utilityTargetRect ctx)
              ctx.blackboard.ai.profile mode

theorem getCombatMemory_setCombat (ctx : GameCtx) (c : CombatMemory) :
    getCombatMemory (setCombat ctx c) = c := rfl

theorem getCombatMemory_approachAndAttack (ctx : GameCtx)
    (kind : String) (nowMs : ℚ) (onGround : Bool) (p : ℚ × ℚ)
    (targetRect : Rect) (profile : AiProfile) (mode : String) :
    getCombatMemory
      (approachAndAttack ctx kind nowMs onGround p targetRect profile
        mode).2 = getCombatMemory ctx := by
  unfold approachAndAttack
  dsimp only
  repeat' split
  all_goals rfl

/-- C4 (corrected): the cached commitment is reused exactly while
nowMs < combat.lockedUntilMs, a planned kind is present, AND the cached
combat.mode matches the EFFECTIVE mode (the requested mode after the
neutral->combo / neutral->pressure hit-confirm upgrade), not the
requested mode itself; reuse delegates to approachAndAttack on the
cached kind and leaves combat memory unchanged.  When a new commitment
is made, the lock window written is nowMs + 240 in combo mode and
nowMs + 320 otherwise, so it always lies in 240-320 ms. -/
theorem utility_lock_invariant (ctx : GameCtx)
    (modeParam : Option String)
    (hguard : utilityGuardFails ctx = false) :
    (utilityIsLocked ctx.nowMs (getCombatMemory ctx)
        (utilityMode ctx modeParam) = true →
      utilityAttack ctx modeParam =
        approachAndAttack ctx
          ((getCombatMemory ctx).desiredMoveKind.getD "") ctx.nowMs
          ctx.blackboard.self.onGround (getPredictedTargetPosition ctx)
          (utilityTargetRect ctx) ctx.blackboard.ai.profile
          (utilityMode ctx modeParam) ∧
      getCombatMemory (utilityAttack ctx modeParam).2 =
        getCombatMemory ctx) ∧
    (utilityIsLocked ctx.nowMs (getCombatMemory ctx)
        (utilityMode ctx modeParam) = false →
      ∀ k s r, utilityBestOf ctx modeParam = some (k, s, r) →
        getCombatMemory (utilityAttack ctx modeParam).2 =
          { getCombatMemory ctx with
            desiredMoveKind := some k,
            mode := some (utilityMode ctx modeParam),
            lockedUntilMs := ctx.nowMs +
              (if utilityMode ctx modeParam = "combo" then 240
               else 320) } ∧
        240 ≤ (getCombatMemory
            (utilityAttack ctx modeParam).2).lockedUntilMs -
          ctx.nowMs ∧
        (getCombatMemory
            (utilityAttack ctx modeParam).2).lockedUntilMs -
          ctx.nowMs ≤ 320) := by
  constructor
  · intro hlock
    have heq : utilityAttack ctx modeParam =
        approachAndAttack ctx
          ((getCombatMemory ctx).desiredMoveKind.getD "") ctx.nowMs
          ctx.blackboard.self.onGround (getPredictedTargetPosition ctx)
          (utilityTargetRect ctx) ctx.blackboard.ai.profile
          (utilityMode ctx modeParam) := by
      unfold utilityAttack
      dsimp only
      rw [if_neg (by simp [hguard]), if_pos hlock]
    exact ⟨heq, by rw [heq, getCombatMemory_approachAndAttack]⟩
  · intro hlock k s r hbest
    have hcm : getCombatMemory (utilityAttack ctx modeParam).2 =
        { getCombatMemory ctx with
          desiredMoveKind := some k,
          mode := some (utilityMode ctx modeParam),
          lockedUntilMs := ctx.nowMs +
            (if utilityMode ctx modeParam = "combo" then 240
             else 320) } := by
      unfold utilityAttack
      dsimp only
      rw [if_neg (by simp [hguard]), if_neg (by simp [hlock]), hbest]
      dsimp only
      by_cases hr : r = true
      · rw [if_pos hr]
        repeat' split
        all_goals rfl
      · rw [if_neg hr]
        rw [getCombatMemory_approachAndAttack,
          getCombatMemory_setCombat]
    refine ⟨hcm, ?_, ?_⟩
    · rw [hcm]
      dsimp only
      split <;> simp <;> norm_num
    · rw [hcm]
      dsimp only
      split <;> simp <;> norm_num

/-! Concrete locked-combat scenario: requested mode "neutral", cached
commitment "heavy" in mode "combo", hit-confirm combo window active. -/

def utilCombatL : CombatMemory :=
  { lockedUntilMs := 2000, mode := some "combo",
    desiredMoveKind := some "heavy",
    lastAttackEvent := some ⟨"hit"⟩,
    lastProcessedAttackEventAtMs := 0, lastLandedHitAtMs := 900,
    comboWindowUntilMs := 1800, comboCount := 1,
    blockPressureUntilMs := 0 }

def utilCtxL : GameCtx :=
  { nowMs := 1000, self := navWitFighterSelf,
    target := navWitFighterTarget,
    stage :=
      { width := 1280, height := 720, centerX := 640,
        offstageMargin := none, platformGraph := none },
    blackboard := { navWitBb with
      ai := { navWitBb.ai with combat := some utilCombatL } },
    intent := createEmptyIntent, trace := [], reasons := [] }

/-- Witness for C4: on the locked context the reuse branch is taken and
leaves combat memory unchanged. -/
theorem utility_lock_invariant_witness :
    utilityGuardFails utilCtxL = false ∧
    utilityIsLocked utilCtxL.nowMs (getCombatMemory utilCtxL)
      (utilityMode utilCtxL (some "neutral")) = true ∧
    getCombatMemory (utilityAttack utilCtxL (some "neutral")).2 =
      getCombatMemory utilCtxL :=
  ⟨by decide, by decide,
    ((utility_lock_invariant utilCtxL (some "neutral") (by decide)).1
      (by decide)).2⟩

/-- C4, counterexample to the original phrasing: the requested mode is
"neutral" and the cached combat.mode is "combo" — they do not match —
yet the cached commitment IS reused (the lock check compares the cached
mode to the EFFECTIVE mode, which the active combo window upgraded to
"combo"): utilityAttack delegates to approachAndAttack on the cached
kind "heavy" and leaves the combat memory untouched rather than
re-scoring. -/
theorem utility_lock_requested_mode_mismatch_reuse :
    (some "neutral" : Option String).getD "neutral" ≠
      (getCombatMemory utilCtxL).mode.getD "" ∧
    utilCtxL.nowMs < (getCombatMemory utilCtxL).lockedUntilMs ∧
    utilityMode utilCtxL (some "neutral") = "combo" ∧
    utilityAttack utilCtxL (some "neutral") =
      approachAndAttack utilCtxL
        ((getCombatMemory utilCtxL).desiredMoveKind.getD "")
        utilCtxL.nowMs utilCtxL.blackboard.self.onGround
        (getPredictedTargetPosition utilCtxL)
        (utilityTargetRect utilCtxL) utilCtxL.blackboard.ai.profile
        (utilityMode utilCtxL (some "neutral")) ∧
    (getCombatMemory utilCtxL).desiredMoveKind = some "heavy" ∧
    getCombatMemory (utilityAttack utilCtxL (some "neutral")).2 =
      getCombatMemory utilCtxL := by
  have heq : utilityAttack utilCtxL (some "neutral") =
      approachAndAttack utilCtxL
        ((getCombatMemory utilCtxL).desiredMoveKind.getD "")
        utilCtxL.nowMs utilCtxL.blackboard.self.onGround
        (getPredictedTargetPosition utilCtxL)
        (utilityTargetRect utilCtxL) utilCtxL.blackboard.ai.profile
        (utilityMode utilCtxL (some "neutral")) := by
    unfold utilityAttack
    dsimp only
    rw [if_neg (by decide), if_pos (by decide)]
  refine ⟨by decide, by decide, by decide, heq, by decide, ?_⟩
  rw [heq, getCombatMemory_approachAndAttack]

/-! Concrete incoming-attack scenario for the evade leaf: the target's
light attack is in active phase (hasHit = false) right next to the
mover, and the active profile has low aggression and low defense. -/

def evadeSelf : Fighter :=
  { navWitFighterSelf with
    x := 100, y := 200, displayWidth := 48, displayHeight := 96 }

def evadeTarget : Fighter :=
  { navWitFighterSelf with
    x := 160, y := 200, facing := -1,
    attackState := some ⟨"light", "active", false, 1100⟩ }

def evadeProfile : AiProfile :=
  { balancedProfile with
    id := "lowlow", aggression := 2/10, defense := 3/10 }

def evadeCtx : GameCtx :=
  { nowMs := 1000, self := evadeSelf, target := evadeTarget,
    stage :=
      { width := 1280, height := 720, centerX := 640,
        offstageMargin := none, platformGraph := none },
    blackboard := { navWitBb with
      ai := { navWitBb.ai with
        profile := evadeProfile,
        threat := computeThreat 1000 evadeSelf evadeTarget
          evadeProfile.threatHorizonMs } },
    intent := createEmptyIntent, trace := [], reasons := [] }

theorem evadeCtx_threat :
    computeThreat 1000 evadeSelf evadeTarget
        evadeProfile.threatHorizonMs =
      ⟨true, true, some 0, some "light", some "active", 1⟩ := by
  norm_num [computeThreat, evadeSelf, evadeTarget, evadeProfile,
    navWitFighterSelf, balancedProfile, MOVES, lightMove, rectsOverlap,
    jsClamp, jsRound, max_def, min_def,
    show ("light" = "") = False from by simp,
    show ("active" = "startup") = False from by simp]

/-- C8: evade returns FAILURE and leaves the context untouched (no
intent write) whenever the blackboard threat model's willHit is false;
and on the concrete scenario — target's light attack in active phase
with hasHit = false, predicted hitbox overlapping the mover's predicted
hurtbox inside the horizon (computeThreat reports willHit = true), low
aggression and low defense — evade returns SUCCESS with
dodgePressed = true and moveX = -1, the direction away from the
target. -/
theorem evade_threat_gate :
    (∀ ctx : GameCtx, ctx.blackboard.ai.threat.willHit = false →
      evade ctx = (.failure, ctx)) ∧
    computeThreat 1000 evadeSelf evadeTarget
        evadeProfile.threatHorizonMs =
      ⟨true, true, some 0, some "light", some "active", 1⟩ ∧
    (evade evadeCtx).1 = .success ∧
    (evade evadeCtx).2.intent.dodgePressed = true ∧
    (evade evadeCtx).2.intent.moveX = -1 ∧
    jsSign (evadeCtx.self.x - evadeCtx.target.x) = -1 := by
  have hgate : ∀ ctx : GameCtx,
      ctx.blackboard.ai.threat.willHit = false →
      evade ctx = (.failure, ctx) := by
    intro ctx h
    unfold evade
    rw [if_pos h]
  have hproj : evadeCtx.blackboard.ai.threat =
      ⟨true, true, some 0, some "light", some "active", 1⟩ := by
    rw [show evadeCtx.blackboard.ai.threat =
      computeThreat 1000 evadeSelf evadeTarget
        evadeProfile.threatHorizonMs from rfl, evadeCtx_threat]
  have hdir : jsSign (evadeCtx.self.x - evadeCtx.target.x) = -1 := by
    norm_num [jsSign, evadeCtx, evadeSelf, evadeTarget,
      navWitFighterSelf]
  have hrun : evade evadeCtx =
      (.success, pushReason (setIntent
        (setCombat evadeCtx { getCombatMemory evadeCtx with
          lockedUntilMs :=
            Max.max (getCombatMemory evadeCtx).lockedUntilMs
              (evadeCtx.nowMs + 260),
          mode := some "defend" })
        { (setCombat evadeCtx { getCombatMemory evadeCtx with
            lockedUntilMs :=
              Max.max (getCombatMemory evadeCtx).lockedUntilMs
                (evadeCtx.nowMs + 260),
            mode := some "defend" }).intent with
          dodgePressed := true,
          moveX :=
            if jsSign (evadeCtx.self.x - evadeCtx.target.x) = 0 then -1
            else jsSign (evadeCtx.self.x - evadeCtx.target.x),
          fastFall := false })
        "DEFEND_DODGE") := by
    unfold evade
    rw [if_neg (by rw [hproj]; decide)]
    dsimp only
    rw [if_neg ?h1, if_neg ?h2]
    case h1 =>
      rw [hproj]
      intro hc
      exact absurd hc.2.1 (by norm_num)
    case h2 =>
      rw [hproj]
      intro hc
      exact absurd hc.2.1 (by norm_num)
  refine ⟨hgate, evadeCtx_threat, ?_, ?_, ?_, hdir⟩
  · rw [hrun]
  · rw [hrun]
    rfl
  · rw [hrun]
    dsimp only
    rw [if_neg (by rw [hdir]; norm_num), hdir]
    rfl

/-- Witness for C8: the universally quantified no-threat gate applied
at a concrete context whose threat model reports willHit = false. -/
theorem evade_threat_gate_witness :
    evade navWitCtxA = (.failure, navWitCtxA) :=
  evade_threat_gate.1 navWitCtxA rfl

/-! ## The BotAgent driver (src/game/ai/BotAgent.js).  The persistent
agent fields are a state record; the root node is a function that
either returns a status or throws — Except carries the thrown message
together with the context as mutated up to the throw, matching the JS
in-place mutation of intent/blackboard/reasons. -/

structure BotAgentState where
  profileId : String
  blackboard : Blackboard
  lastStatus : Status
  lastTrace : List (String × Status)
  lastReasons : List String

/-- _updateBlackboard (lines 97-187): overwrite the observation
snapshot, keep ai memory, refresh profile and threat. -/
def updateBlackboard (self target : Fighter) (stage : Stage)
    (profileId : String) (bb : Blackboard) (nowMs : ℚ) : Blackboard :=
  let profile := getAiProfile (some profileId)
  let predictionT : ℚ := 200 / 1000
  let dx := target.x - self.x
  let dy := target.y - self.y
  let predictedX := target.x + target.vx * predictionT
  let predictedY := target.y + target.vy * predictionT
  let predictedSelfX := self.x + self.vx * predictionT
  let predictedSelfY := self.y + self.vy * predictionT
  { bb with
    self :=
      { hp := self.hp, maxHp := self.maxHp, x := self.x, y := self.y,
        vx := self.vx, vy := self.vy,
        onGround := self.blockedDown || self.touchingDown,
        inHitstun := self.isInHitstun nowMs,
        inHitstop := self.isInHitstop nowMs,
        attack := self.attackState,
        predictedX :=
          if 0 < stage.width then jsClamp predictedSelfX 0 stage.width
          else predictedSelfX,
        predictedY :=
          if 0 < stage.height then jsClamp predictedSelfY 0 stage.height
          else predictedSelfY },
    target :=
      { x := target.x, y := target.y, vx := target.vx, vy := target.vy,
        dx := dx, dy := dy, absDx := jsAbs dx, absDy := jsAbs dy,
        inHitstun := target.isInHitstun nowMs,
        attack := target.attackState,
        onGround := target.blockedDown || target.touchingDown,
        predictedX :=
          if 0 < stage.width then jsClamp predictedX 0 stage.width
          else predictedX,
        predictedY :=
          if 0 < stage.height then jsClamp predictedY 0 stage.height
          else predictedY },
    stage := { width := stage.width, height := stage.height,
               centerX := stage.centerX },
    ai := { bb.ai with
      profileId := profile.id, profile := profile,
      threat := computeThreat nowMs self target profile.threatHorizonMs,
      nowMs := nowMs } }

/-- The per-tick context built by tick (lines 55-65): fresh empty
intent, fresh trace and reasons. -/
def botAgentCtx0 (self target : Fighter) (stage : Stage)
    (st : BotAgentState) (nowMs : ℚ) : GameCtx :=
  { nowMs := nowMs, self := self, target := target, stage := stage,
    blackboard := updateBlackboard self target stage st.profileId
      st.blackboard nowMs,
    intent := createEmptyIntent, trace := [], reasons := [] }

/-- BotAgent.tick (lines 44-94): run the root inside try/catch, record
the BT_ERROR reason and FAILURE on a throw, clamp moveX, persist the
explainability fields, and return the intent object as mutated by the
tick so far. -/
def botAgentTick
    (btRoot : GameCtx → Except (String × GameCtx) (Status × GameCtx))
    (self target : Fighter) (stage : Stage) (st : BotAgentState)
    (nowMs : ℚ) : Intent × BotAgentState :=
  let r :=
    match btRoot (botAgentCtx0 self target stage st nowMs) with
    | .ok (s, c) => (s, c)
    | .error (msg, c) =>
        (Status.failure, pushReason c ("BT_ERROR:" ++ msg))
  let intent2 :=
    { r.2.intent with moveX := jsClamp r.2.intent.moveX (-1) 1 }
  (intent2,
   { st with
     blackboard := { r.2.blackboard with
       ai := { r.2.blackboard.ai with
         lastStatus := some r.1, lastTrace := r.2.trace,
         lastReasons := r.2.reasons } },
     lastStatus := r.1, lastTrace := r.2.trace,
     lastReasons := r.2.reasons })

/-- C7 (corrected): when the root's tick throws, BotAgent.tick catches
the exception, appends a "BT_ERROR:"-prefixed reason, records status
FAILURE (on the agent and on blackboard.ai), and returns an intent
instead of propagating — but the returned intent is the tick's intent
object as mutated by the leaves before the throw, with moveX clamped to
[-1, 1]; it is the fresh empty intent only when nothing was written
before the throw. -/
theorem botAgent_tick_error_handling
    (btRoot : GameCtx → Except (String × GameCtx) (Status × GameCtx))
    (self target : Fighter) (stage : Stage) (st : BotAgentState)
    (nowMs : ℚ) (msg : String) (cthrow : GameCtx)
    (herr : btRoot (botAgentCtx0 self target stage st nowMs) =
      .error (msg, cthrow)) :
    (botAgentTick btRoot self target stage st nowMs).2.lastStatus =
      .failure ∧
    (botAgentTick btRoot self target stage st
        nowMs).2.blackboard.ai.lastStatus = some .failure ∧
    (botAgentTick btRoot self target stage st nowMs).2.lastReasons =
      cthrow.reasons ++ ["BT_ERROR:" ++ msg] ∧
    (botAgentTick btRoot self target stage st nowMs).1 =
      { cthrow.intent with
        moveX := jsClamp cthrow.intent.moveX (-1) 1 } := by
  unfold botAgentTick
  rw [herr]
  exact ⟨rfl, rfl, rfl, rfl⟩

/-! A hostile root that writes jumpPressed before throwing. -/

def c7Root :
    GameCtx → Except (String × GameCtx) (Status × GameCtx) :=
  fun c =>
    .error ("boom", setIntent c { c.intent with jumpPressed := true })

def c7State : BotAgentState :=
  { profileId := "balanced", blackboard := navWitBb,
    lastStatus := .failure, lastTrace := [], lastReasons := [] }

def c7Stage : Stage :=
  { width := 1280, height := 720, centerX := 640,
    offstageMargin := none, platformGraph := none }

/-- Witness for C7 at the hostile root: the error equation is
discharged by computation and the theorem's conclusions are obtained at
that input. -/
theorem botAgent_tick_error_handling_witness :
    (botAgentTick c7Root navWitFighterSelf navWitFighterTarget c7Stage
        c7State 1000).2.lastStatus = .failure ∧
    (botAgentTick c7Root navWitFighterSelf navWitFighterTarget c7Stage
        c7State 1000).2.lastReasons = ["BT_ERROR:" ++ "boom"] :=
  ⟨(botAgent_tick_error_handling c7Root navWitFighterSelf
      navWitFighterTarget c7Stage c7State 1000 "boom"
      (setIntent (botAgentCtx0 navWitFighterSelf navWitFighterTarget
        c7Stage c7State 1000)
        { (botAgentCtx0 navWitFighterSelf navWitFighterTarget c7Stage
            c7State 1000).intent with jumpPressed := true }) rfl).1,
   (botAgent_tick_error_handling c7Root navWitFighterSelf
      navWitFighterTarget c7Stage c7State 1000 "boom"
      (setIntent (botAgentCtx0 navWitFighterSelf navWitFighterTarget
        c7Stage c7State 1000)
        { (botAgentCtx0 navWitFighterSelf navWitFighterTarget c7Stage
            c7State 1000).intent with jumpPressed := true }) rfl).2.2.1⟩

/-- C7, counterexample to the original phrasing "returns the fresh
empty intent": a leaf write made before the throw survives into the
returned intent — jumpPressed comes back true, while the fresh empty
intent (clamped or not) has jumpPressed false. -/
theorem botAgent_error_intent_not_fresh :
    (botAgentTick c7Root navWitFighterSelf navWitFighterTarget c7Stage
        c7State 1000).1.jumpPressed = true ∧
    createEmptyIntent.jumpPressed = false ∧
    (botAgentTick c7Root navWitFighterSelf navWitFighterTarget c7Stage
        c7State 1000).1 ≠
      { createEmptyIntent with
        moveX := jsClamp createEmptyIntent.moveX (-1) 1 } ∧
    (botAgentTick c7Root navWitFighterSelf navWitFighterTarget c7Stage
        c7State 1000).2.lastStatus = .failure := by
  have hj : (botAgentTick c7Root navWitFighterSelf navWitFighterTarget
      c7Stage c7State 1000).1.jumpPressed = true := rfl
  refine ⟨hj, rfl, ?_, rfl⟩
  intro h
  have hproj := congrArg Intent.jumpPressed h
  rw [hj] at hproj
  simp [createEmptyIntent] at hproj

/-! ## BT JSON validation (src/game/ai/bt/validateBtJson.js).

BtNodeSchema is a z.union of twenty strict node-object shapes.  The
zod v3 union semantics modelled here: each option is parsed against the
input with the union's own path; an option whose aborting pieces all
pass (the type literal matches, required fields are present with the
right basic types, every child element parses) but whose non-aborting
checks fail (array .min / .length, number bound checks, strict
unknown-keys) ends DIRTY, and the union surfaces that option's issues,
each carrying its absolute path; enum / literal mismatches, wrong basic
types and missing required fields ABORT an option, and when every
option aborts the union emits the single invalid_union issue at its own
path with the default message "Invalid input".  The node type literals
are pairwise distinct, so at most one option survives past its literal.
formatZodIssues renders an issue as "path: message", or just the
message when the path is empty — which for invalid_union at the root it
always is. -/

/-- A zod parse outcome: valid, dirty with its surfaced formatted
issues, or aborted. -/
inductive ZResult where
  | valid
  | dirty (issues : List String)
  | aborted
deriving DecidableEq, Repr

/-- mergeObjectSync / mergeArray: abort dominates, dirty issues
accumulate in processing order. -/
def ZResult.merge : ZResult → ZResult → ZResult
  | .aborted, _ => .aborted
  | _, .aborted => .aborted
  | .valid, r => r
  | .dirty is, .valid => .dirty is
  | .dirty is, .dirty is2 => .dirty (is ++ is2)

/-- formatZodIssues line for one issue: "path: message", or the bare
message at the empty (root) path. -/
def zIssue (p msg : String) : String :=
  if p = "" then msg else p ++ ": " ++ msg

/-- formatZodPath growth for an object key. -/
def pathKey (p k : String) : String :=
  if p = "" then k else p ++ "." ++ k

/-- formatZodPath growth for an array index. -/
def pathIdx (p : String) (i : Nat) : String :=
  p ++ "[" ++ toString i ++ "]"

def joinComma : List String → String
  | [] => ""
  | [x] => x
  | x :: rest => x ++ ", " ++ joinComma rest

/-- The zod v3 unrecognized_keys message. -/
def unrecognizedKeysMsg (ks : List String) : String :=
  "Unrecognized key(s) in object: " ++
    joinComma (ks.map (fun k => "\x27" ++ k ++ "\x27"))

/-- `.strict()`: unknown keys are a DIRTY unrecognized_keys issue at
the object's own path. -/
def zodStrictKeys (p : String) (fields : List (String × Json))
    (allowed : List String) : ZResult :=
  let extra := (fields.map (·.1)).filter (fun k => !(allowed.contains k))
  if extra.isEmpty then .valid
  else .dirty [zIssue p (unrecognizedKeysMsg extra)]

/-- Cooldown.params.ms: a number (else abort), then the DIRTY checks
.positive() and .max(60000, ...) in chain order. -/
def zodCooldownMs (p : String) : Json → ZResult
  | .num q =>
      let i1 := if q ≤ 0 then
          [zIssue p "Number must be greater than 0"] else []
      let i2 := if 60000 < q then
          [zIssue p "Cooldown.params.ms is too large (max 60000)"]
        else []
      if (i1 ++ i2).isEmpty then .valid else .dirty (i1 ++ i2)
  | _ => .aborted

/-- PositiveNumberSchema.max(hi, msg): a number (else abort), then the
DIRTY checks .nonnegative() and .max(hi, msg). -/
def zodBoundedNonneg (p : String) (hi : ℚ) (msg : String) :
    Json → ZResult
  | .num q =>
      let i1 := if q < 0 then
          [zIssue p "Number must be greater than or equal to 0"] else []
      let i2 := if hi < q then [zIssue p msg] else []
      if (i1 ++ i2).isEmpty then .valid else .dirty (i1 ++ i2)
  | _ => .aborted

/-- z.enum: a string of the list, anything else ABORTS. -/
def zodEnum (vals : List String) : Json → ZResult
  | .str s => if vals.contains s then .valid else .aborted
  | _ => .aborted

/-- `params: z.object(...).partial().optional()`: absent is fine, a
non-object aborts, an object is checked by f at the params path. -/
def zodOptParams (p : String) (fields : List (String × Json))
    (f : List (String × Json) → ZResult) : ZResult :=
  match (Json.obj fields).get "params" with
  | none => .valid
  | some (.obj po) => f po
  | some _ => .aborted

/-- A `.partial()` field: absent is fine, else checked by f at the
field's path. -/
def zodOptField (p : String) (po : List (String × Json)) (key : String)
    (f : String → Json → ZResult) : ZResult :=
  match (Json.obj po).get key with
  | none => .valid
  | some v => f (pathKey p key) v

/-- `z.array(BtNodeSchema)` when the property is present. -/
def Json.childrenArr (j : Json) : Option (List Json) :=
  match j.get "children" with
  | some (.arr xs) => some xs
  | _ => none

/-- The element loop of z.array(BtNodeSchema): element i parses at
path base[i]; an aborted element aborts the array, dirty element
issues accumulate in order. -/
def zodChildrenGo (f : String → Json → ZResult) (base : String) :
    Nat → List Json → ZResult
  | _, [] => .valid
  | i, c :: rest =>
      (f (pathIdx base i) c).merge (zodChildrenGo f base (i + 1) rest)

/-- BtNodeSchema (lines 33-144) at path p: the node type literal
selects the one candidate option (all others abort on their literal);
the option's outcome is the strict-keys check merged with its field
checks, children arrays recursing at their extended paths.  The
recursion is bounded by fuel: every step descends to an element of the
node's children array, a strict subterm, so the depth is below
sizeOf of the node and the 0-fuel case is never reached when
zodParseNode below supplies sizeOf as the fuel. -/
def zodParseNodeF : Nat → String → Json → ZResult
  | 0, _, _ => .aborted
  | fuel + 1, p, j =>
      match j with
      | .obj fields =>
          (match (Json.obj fields).get "type" with
           | some (.str t) =>
               if t = "Selector" then
                 (zodStrictKeys p fields ["type", "children"]).merge
                   (match Json.childrenArr (.obj fields) with
                    | some xs =>
                        (if xs.length < 1 then
                            ZResult.dirty [zIssue (pathKey p "children")
                              "Selector.children must have at least 1 child"]
                          else .valid).merge
                          (zodChildrenGo (zodParseNodeF fuel)
                            (pathKey p "children") 0 xs)
                    | none => .aborted)
               else if t = "Sequence" then
                 (zodStrictKeys p fields ["type", "children"]).merge
                   (match Json.childrenArr (.obj fields) with
                    | some xs =>
                        (if xs.length < 1 then
                            ZResult.dirty [zIssue (pathKey p "children")
                              "Sequence.children must have at least 1 child"]
                          else .valid).merge
                          (zodChildrenGo (zodParseNodeF fuel)
                            (pathKey p "children") 0 xs)
                    | none => .aborted)
               else if t = "Inverter" then
                 (zodStrictKeys p fields ["type", "children"]).merge
                   (match Json.childrenArr (.obj fields) with
                    | some xs =>
                        (if xs.length ≠ 1 then
                            ZResult.dirty [zIssue (pathKey p "children")
                              "Inverter must have exactly 1 child"]
                          else .valid).merge
                          (zodChildrenGo (zodParseNodeF fuel)
                            (pathKey p "children") 0 xs)
                    | none => .aborted)
               else if t = "Cooldown" then
                 (zodStrictKeys p fields
                     ["type", "params", "children"]).merge
                   ((zodOptParams p fields (fun po =>
                       zodOptField (pathKey p "params") po "ms"
                         zodCooldownMs)).merge
                     (match Json.childrenArr (.obj fields) with
                      | some xs =>
                          (if xs.length ≠ 1 then
                              ZResult.dirty [zIssue (pathKey p "children")
                                "Cooldown must have exactly 1 child"]
                            else .valid).merge
                            (zodChildrenGo (zodParseNodeF fuel)
                              (pathKey p "children") 0 xs)
                      | none => .aborted))
               else if t = "IsOffstage" ∨ t = "IsTargetAttacking" ∨
                   t = "IsTargetRecovering" ∨ t = "IsTargetInHitstun" ∨
                   t = "RecoverToStage" ∨ t = "Evade" ∨ t = "Punish" ∨
                   t = "MoveToTargetX" ∨ t = "LightAttack" ∨
                   t = "HeavyAttack" then
                 zodStrictKeys p fields ["type"]
               else if t = "CanAttack" ∨ t = "IsInRange" then
                 (zodStrictKeys p fields ["type", "params"]).merge
                   (match (Json.obj fields).get "params" with
                    | some (.obj po) =>
                        (zodStrictKeys (pathKey p "params") po
                            ["kind"]).merge
                          (match (Json.obj po).get "kind" with
                           | some v =>
                               zodEnum ["light", "heavy", "jab", "sweep",
                                 "uppercut", "airKick"] v
                           | none => .aborted)
                    | _ => .aborted)
               else if t = "KeepDistance" then
                 (zodStrictKeys p fields ["type", "params"]).merge
                   (zodOptParams p fields (fun po =>
                     (zodOptField (pathKey p "params") po "min"
                       (fun pf => zodBoundedNonneg pf 2000
                         "KeepDistance.params.min is too large")).merge
                     (zodOptField (pathKey p "params") po "max"
                       (fun pf => zodBoundedNonneg pf 2000
                         "KeepDistance.params.max is too large"))))
               else if t = "Strafe" then
                 (zodStrictKeys p fields ["type", "params"]).merge
                   (zodOptParams p fields (fun po =>
                     zodOptField (pathKey p "params") po "dir"
                       (fun _ => zodEnum ["auto", "left", "right"])))
               else if t = "Approach" then
                 (zodStrictKeys p fields ["type", "params"]).merge
                   (zodOptParams p fields (fun po =>
                     zodOptField (pathKey p "params") po "distance"
                       (fun pf => zodBoundedNonneg pf 5000
                         "Approach.params.distance is too large")))
               else if t = "UtilityAttack" then
                 (zodStrictKeys p fields ["type", "params"]).merge
                   (zodOptParams p fields (fun po =>
                     zodOptField (pathKey p "params") po "mode"
                       (fun _ => zodEnum ["neutral", "punish", "combo"])))
               else .aborted
           | _ => .aborted)
      | _ => .aborted

mutual

/-- Size of a JSON document (counts every node), an upper bound for
the schema recursion depth. -/
def jsonFuel : Json → Nat
  | .null => 1
  | .bool _ => 1
  | .num _ => 1
  | .str _ => 1
  | .arr xs => 1 + jsonFuelL xs
  | .obj fs => 1 + jsonFuelF fs

def jsonFuelL : List Json → Nat
  | [] => 0
  | j :: rest => jsonFuel j + jsonFuelL rest

def jsonFuelF : List (String × Json) → Nat
  | [] => 0
  | f :: rest => jsonFuel f.2 + jsonFuelF rest

end

/-- BtNodeSchema.safeParse on a parsed document: the root union at the
empty path, with enough fuel for the whole document. -/
def zodParseNode (j : Json) : ZResult := zodParseNodeF (jsonFuel j) "" j

/-- validateBtJsonText after a successful JSON.parse (lines 169-217):
BtNodeSchema.safeParse followed by formatZodIssues.  A valid parse is
ok with no issues; a dirty union surfaces the dirty option's
path-bearing issues; when every option aborts, the single root
invalid_union issue formats as the path-less "Invalid input". -/
def validateBtJsonParsed (j : Json) : Bool × List String :=
  match zodParseNode j with
  | .valid => (true, [])
  | .dirty issues => (false, issues)
  | .aborted => (false, ["Invalid input"])

/-- DEFAULT_BT_JSON (the default tree shipped with the game), as a
parsed JSON value. -/
def DEFAULT_BT_JSON : Json :=
  .obj [("type", .str "Selector"),
    ("children", .arr [
      .obj [("type", .str "Sequence"),
        ("children", .arr [
          .obj [("type", .str "IsOffstage")],
          .obj [("type", .str "RecoverToStage")]])],
      .obj [("type", .str "Evade")],
      .obj [("type", .str "Punish")],
      .obj [("type", .str "Sequence"),
        ("children", .arr [
          .obj [("type", .str "IsTargetInHitstun")],
          .obj [("type", .str "UtilityAttack"),
            ("params", .obj [("mode", .str "combo")])]])],
      .obj [("type", .str "UtilityAttack")],
      .obj [("type", .str "Sequence"),
        ("children", .arr [
          .obj [("type", .str "KeepDistance")],
          .obj [("type", .str "Strafe")]])],
      .obj [("type", .str "MoveToTargetX")]])]

/-- A CanAttack whose required enum param was mutated out of the
enum. -/
def btMutantBadKind : Json :=
  .obj [("type", .str "CanAttack"),
    ("params", .obj [("kind", .str "fireball")])]

/-- A Selector with zero children. -/
def btMutantChildless : Json :=
  .obj [("type", .str "Selector"), ("children", .arr [])]

/-- An Inverter with two (individually valid) children. -/
def btMutantTwoChildren : Json :=
  .obj [("type", .str "Inverter"),
    ("children", .arr [.obj [("type", .str "Evade")],
      .obj [("type", .str "Evade")]])]

/-- A valid Selector whose second child is a childless Selector. -/
def btMutantNested : Json :=
  .obj [("type", .str "Selector"),
    ("children", .arr [.obj [("type", .str "Evade")],
      .obj [("type", .str "Selector"), ("children", .arr [])]])]

/-- C9 (corrected): the default vocabulary document validates ok:true
with no issues, and wrong-child-count mutants produce ok:false with an
issue string whose dotted/bracketed path locates the offending children
array — at the root ("children: ...") and nested
("children[1].children: ...") — because the matching union option ends
dirty and its path-bearing issues are surfaced.  (Out-of-enum params
abort instead: see the counterexample.) -/
theorem validateBtJson_paths :
    validateBtJsonParsed DEFAULT_BT_JSON = (true, []) ∧
    validateBtJsonParsed btMutantChildless =
      (false, ["children: Selector.children must have at least 1 child"])
      ∧
    validateBtJsonParsed btMutantTwoChildren =
      (false, ["children: Inverter must have exactly 1 child"]) ∧
    validateBtJsonParsed btMutantNested =
      (false,
       ["children[1].children: Selector.children must have at least 1 child"])
      := by
  refine ⟨?_, ?_, ?_, ?_⟩ <;> decide

/-- C9, counterexample to the original phrasing for enum mutants:
mutating CanAttack.params.kind out of the enum ABORTS the matching
union option (enum mismatches are not dirty), so every option aborts
and the result is ok:false with the single issue "Invalid input" — a
string carrying no dotted or bracketed path to params.kind. -/
theorem validateBtJson_enum_mutant_pathless :
    validateBtJsonParsed btMutantBadKind = (false, ["Invalid input"]) := by
  decide

end BrawlAi
